import Mathlib

/-!
Verification development for the client-side navigation engine of the
crowd-status single-page application: the route-matching trie (Router),
the page-controller lifecycle surface (HandlerInterface), and the
transition orchestrator (Navigator) with its in-page / partial / full
transition tiers, scope watchers (ignitersOnPathUnmatch), deferred
cleanups (ignitersOnDomClear) and special-page error isolation.

The JavaScript source is embedded shallowly: pure functions become Lean
functions; the stateful Navigator becomes explicit state passing over a
NavSt record, returning the successor state, a trace of lifecycle events
(method invocations) and an Except value modelling a thrown error.
-/

set_option autoImplicit false

namespace Spa

universe u v

/-! ### Association lists modelling JavaScript object property tables

A JS object used as a dictionary is modelled as a list of key-value
pairs: property read is the first binding, property write replaces the
first binding in place or appends a fresh one.
-/

/-- Property read on a JS object dictionary: first binding for the key. -/
def alookup {β : Type u} : List (String × β) → String → Option β
  | [], _ => none
  | (k, v) :: rest, key => if k = key then some v else alookup rest key

/-- Property write on a JS object dictionary: replace in place or append. -/
def aset {β : Type u} : List (String × β) → String → β → List (String × β)
  | [], key, val => [(key, val)]
  | (k, v) :: rest, key, val =>
    if k = key then (key, val) :: rest else (k, v) :: aset rest key val

/-! ### Path strings

The router's path handling in the source is built from three regex
replacements (strip leading slashes, strip trailing slashes, collapse
slash runs) and from the split-and-drop-empties idiom
path.split('/').filter(e => e). Both are reproduced at character level
so that every definition evaluates by kernel reduction.
-/

/-- Model of the replacement of a leading /+ run by the empty string. -/
def stripLeadingSlashes (cs : List Char) : List Char :=
  cs.dropWhile (fun c => c = '/')

/-- Model of the replacement of a trailing /+ run by the empty string. -/
def stripTrailingSlashes (cs : List Char) : List Char :=
  (cs.reverse.dropWhile (fun c => c = '/')).reverse

/-- Model of the global replacement of every /+ run by a single slash. -/
def collapseSlashes : List Char → List Char
  | [] => []
  | [c] => [c]
  | c1 :: c2 :: rest =>
    if c1 = '/' ∧ c2 = '/' then collapseSlashes (c2 :: rest)
    else c1 :: collapseSlashes (c2 :: rest)

/-- The split('/') of a string, at character level. -/
def splitSlashAux : List Char → List Char → List String
  | [], cur => [String.mk cur.reverse]
  | c :: rest, cur =>
    if c = '/' then String.mk cur.reverse :: splitSlashAux rest []
    else splitSlashAux rest (c :: cur)

/-- JS path.split('/'). -/
def splitSlash (s : String) : List String :=
  splitSlashAux s.data []

/-- JS path.split('/').filter(e => e): split on slashes, drop empty segments. -/
def splitSegs (s : String) : List String :=
  (splitSlash s).filter (fun e => e ≠ "")

/-- JS segments.join('/') on a list of segments. -/
def joinSegs : List String → String
  | [] => ""
  | x :: xs => xs.foldl (fun a b => a ++ "/" ++ b) x

/-- JS elm.startsWith(':'), deciding whether a segment is a parameter. -/
def startsWithColon (s : String) : Bool :=
  match s.data with
  | c :: _ => c = ':'
  | [] => false

/-- JS elm.slice(1), the parameter name of a :name segment. -/
def tailStr (s : String) : String :=
  String.mk s.data.tail

/-! ### Route trie (Router.routes)

RouterRoutes in the source: each node owns an optional bound factory, an
optional parameter name, an optional wildcard child, an optional
parameter child, and a literal-children object.
-/

/-- A route trie node, mirroring the RouterRoutes structure. -/
inductive RNode (α : Type u) : Type u where
  | node (currentHandlerFactory : Option α) (currentPhName : Option String)
      (childWc : Option (RNode α)) (childPh : Option (RNode α))
      (children : List (String × RNode α)) : RNode α

namespace RNode

variable {α : Type u}

/-- The bound factory of the node. -/
def factory : RNode α → Option α
  | .node f _ _ _ _ => f

/-- The captured parameter name of the node. -/
def phName : RNode α → Option String
  | .node _ n _ _ _ => n

/-- The wildcard child of the node. -/
def childWc : RNode α → Option (RNode α)
  | .node _ _ w _ _ => w

/-- The parameter child of the node. -/
def childPh : RNode α → Option (RNode α)
  | .node _ _ _ p _ => p

/-- The literal-children table of the node. -/
def children : RNode α → List (String × RNode α)
  | .node _ _ _ _ ch => ch

end RNode

/-- The freshly initialized trie node of the source. -/
def emptyNode {α : Type u} : RNode α :=
  .node none none none none []

/-- Segment-level route registration, mirroring the loop body of
registerHandlerFactory: a wildcard segment installs a fresh wildcard
child and terminates, a :name segment installs a fresh parameter child
and continues inside it, a literal segment reuses or creates the literal
child; the factory is bound at the node where the walk stops. -/
def registerSegs {α : Type u} : RNode α → List String → α → RNode α
  | .node _f0 n0 wc0 ph0 ch0, [], f => .node (some f) n0 wc0 ph0 ch0
  | .node f0 n0 wc0 ph0 ch0, elm :: rest, f =>
    if elm = "*" then
      -- the wildcard is terminal: remaining segments are ignored and the
      -- factory is bound on the fresh wildcard child
      .node f0 n0 (some (.node (some f) none none none [])) ph0 ch0
    else if startsWithColon elm then
      .node f0 n0 wc0
        (some (registerSegs (.node none (some (tailStr elm)) none none []) rest f)) ch0
    else
      let c := match alookup ch0 elm with
        | some c => c
        | none => emptyNode
      .node f0 n0 wc0 ph0 (aset ch0 elm (registerSegs c rest f))

/-- Result record of findHandlerFactory. -/
structure FindRet (α : Type u) where
  handlerFactory : α
  fixedPath : String
  params : List (String × String)
deriving DecidableEq

/-- Segment-level route lookup, mirroring the loop of findHandlerFactory:
literal children first, then the parameter child, then the wildcard
child; entering the wildcard child captures every remaining segment
(afWcCapture) and the loop only accumulates until the terminal factory
check. -/
def findSegs {α : Type u} : RNode α → List String → List String →
    List (String × String) → Option (FindRet α)
  | r, [], fixedAcc, paramsAcc =>
    match r.factory with
    | none => none
    | some f => some ⟨f, joinSegs fixedAcc, paramsAcc⟩
  | r, elm :: rest, fixedAcc, paramsAcc =>
    match alookup r.children elm with
    | some c => findSegs c rest (fixedAcc ++ [elm]) paramsAcc
    | none =>
      match r.childPh with
      | some phNode =>
        findSegs phNode rest (fixedAcc ++ [":" ++ (phNode.phName.getD ("null"))])
          (aset paramsAcc (phNode.phName.getD ("null")) elm)
      | none =>
        match r.childWc with
        | some wcNode =>
          -- afWcCapture: every remaining segment is captured and joined
          match wcNode.factory with
          | none => none
          | some f =>
            some ⟨f, joinSegs (fixedAcc ++ ["*"]),
              aset paramsAcc ("*") (joinSegs (elm :: rest))⟩
        | none => none

/-- The Router class: the route trie plus the keyed special-route table.
The factory types are parameters of the embedding. -/
structure Router (α : Type u) (σ : Type v) where
  routes : RNode α
  specialRoutes : List (String × σ)

/-- A freshly constructed Router. -/
def emptyRouter {α : Type u} {σ : Type v} : Router α σ :=
  ⟨emptyNode, []⟩

/-- Router.pathNormalize: strip leading and trailing slash runs, collapse
inner slash runs. -/
def Router.pathNormalize (path : String) : String :=
  String.mk (collapseSlashes (stripTrailingSlashes (stripLeadingSlashes path.data)))

/-- Router.registerHandlerFactory: normalize, split, insert into the trie. -/
def Router.registerHandlerFactory {α : Type u} {σ : Type v} (r : Router α σ)
    (fixedPath : String) (handlerFactory : α) : Router α σ :=
  { r with routes :=
      registerSegs r.routes (splitSegs (Router.pathNormalize fixedPath)) handlerFactory }

/-- Router.findHandlerFactory: normalize, split, walk the trie. -/
def Router.findHandlerFactory {α : Type u} {σ : Type v} (r : Router α σ)
    (path : String) : Option (FindRet α) :=
  findSegs r.routes (splitSegs (Router.pathNormalize path)) [] []

/-- Router.registerSpecialRoute: last write wins on the keyed table. -/
def Router.registerSpecialRoute {α : Type u} {σ : Type v} (r : Router α σ)
    (name : String) (handlerFactory : σ) : Router α σ :=
  { r with specialRoutes := aset r.specialRoutes name handlerFactory }

/-- Router.findSpecialHandlerFactory: keyed read, null when absent. -/
def Router.findSpecialHandlerFactory {α : Type u} {σ : Type v} (r : Router α σ)
    (name : String) : Option σ :=
  alookup r.specialRoutes name

/-! ### Route-collection notions used to specify findHandlerFactory

The registration loop replaces (rather than reuses) parameter and
wildcard children, and the lookup loop prefers the parameter child over
the wildcard child; conflictSegs captures exactly the pattern pairs that
interact through these two behaviors.
-/

/-- A segment that occupies the parameter or wildcard slot of a node. -/
def isSpecialSeg (s : String) : Bool :=
  startsWithColon s || s = "*"

/-- Two normalized patterns conflict when they agree on a literal prefix
and then either both place a parameter-or-wildcard segment at the same
trie position (registration replaces the shared slot, and lookup prefers
the parameter slot over the wildcard slot), or both end at the same
leaf. -/
def conflictSegs : List String → List String → Bool
  | [], [] => true
  | [], _ :: _ => false
  | _ :: _, [] => false
  | s :: ps, t :: qs =>
    if isSpecialSeg s && isSpecialSeg t then true
    else if !isSpecialSeg s && !isSpecialSeg t && s = t then conflictSegs ps qs
    else false

/-- The parameter names declared by a pattern's :name segments. -/
def declaredNames (p : List String) : List String :=
  p.filterMap (fun s => if startsWithColon s then some (tailStr s) else none)

/-- A well-formed pattern: the wildcard only as last segment, parameter
names distinct and distinct from the wildcard key. -/
def wfPattern (p : List String) : Prop :=
  "*" ∉ p.dropLast ∧ (declaredNames p).Nodup ∧ "*" ∉ declaredNames p

instance wfPatternDecidable (p : List String) : Decidable (wfPattern p) := by
  unfold wfPattern
  infer_instance

/-- The parameter keys a pattern's own literal path should populate. -/
def declaredKeys (p : List String) : List String :=
  declaredNames p ++ (if p.getLast? = some ("*") then ["*"] else [])

/-- The normalized segment list of a pattern or path string. -/
def patSegs (q : String) : List String :=
  splitSegs (Router.pathNormalize q)

/-- The router built by registering a collection of patterns in order. -/
def buildRouter {α : Type u} {σ : Type v} (L : List (String × α)) : Router α σ :=
  L.foldl (fun r pf => r.registerHandlerFactory pf.1 pf.2) emptyRouter

/-- The parameter object produced by matching a pattern's own literal
path, accumulated exactly as findSegs accumulates it. -/
def paramsAccum : List (String × String) → List String → List (String × String)
  | pa, [] => pa
  | pa, s :: rest =>
    if s = "*" then aset pa ("*") (joinSegs (s :: rest))
    else if startsWithColon s then paramsAccum (aset pa (tailStr s) s) rest
    else paramsAccum pa rest

/-- The parameter object of a pattern matched against its own path. -/
def paramsOfPattern (p : List String) : List (String × String) :=
  paramsAccum [] p

/-- Trie well-formedness: literal-children keys never occupy the
parameter or wildcard slot (registration can only create such keys). -/
inductive NodeInv {α : Type u} : RNode α → Prop where
  | mk (f : Option α) (n : Option String) (wc ph : Option (RNode α))
      (ch : List (String × RNode α))
      (hch1 : ∀ k c, (k, c) ∈ ch → isSpecialSeg k = false)
      (hch2 : ∀ k c, (k, c) ∈ ch → NodeInv c)
      (hph : ∀ c, ph = some c → NodeInv c)
      (hwc : ∀ c, wc = some c → NodeInv c) :
      NodeInv (.node f n wc ph ch)

/-- Canonical self-resolution: the walk of a pattern's own literal path
takes a present literal edge at literal segments, the parameter edge
with the right name at parameter segments, and a terminal wildcard edge
carrying the factory at the wildcard segment. -/
def selfResolves {α : Type u} : RNode α → List String → α → Prop
  | r, [], f => r.factory = some f
  | r, s :: rest, f =>
    if s = "*" then
      rest = [] ∧ alookup r.children s = none ∧ r.childPh = none
        ∧ ∃ w, r.childWc = some w ∧ w.factory = some f
    else if startsWithColon s then
      alookup r.children s = none
        ∧ ∃ c, r.childPh = some c ∧ c.phName = some (tailStr s)
            ∧ selfResolves c rest f
    else ∃ c, alookup r.children s = some c ∧ selfResolves c rest f

/-- No parameter child sits on the literal prefix leading to a pattern's
wildcard node (the lookup would prefer it over the wildcard child). -/
def phFreeFor {α : Type u} : RNode α → List String → Prop
  | _, [] => True
  | r, s :: rest =>
    if s = "*" then r.childPh = none
    else if startsWithColon s then True
    else
      match alookup r.children s with
      | some c => phFreeFor c rest
      | none => True

/-! ### Navigator: data model

Handler methods are asynchronous in the source; the embedding models each
method as a pure computation that either returns its value or throws
(Except). The Navigator itself is modelled as explicit state passing:
every private method maps a NavSt to a successor NavSt, a trace of
lifecycle events, and an Except result. JavaScript mutations performed
before a throw persist, exactly as in the source.
-/

/-- Errors: handler-thrown errors, the missing-special-route error thrown
by transitionToSpecial, and the TypeError of calling a method on a null
prevHandler. -/
inductive Err : Type where
  | thrown (msg : String)
  | specialNotFound (name : String)
  | nullPrevHandler
deriving DecidableEq, Repr

deriving instance DecidableEq for Except

/-- Matched or captured parameters (a JS object keyed by strings). -/
abbrev Params := List (String × String)

/-- A scope watcher (HandlerIgnitersOnPathUnmatch): a pattern and a
callback; the callback is modelled by an id (for the trace) and by its
outcome when fired. -/
structure Igniter where
  pattern : String
  id : Nat
  onPathUnmatchFn : Except Err Unit
deriving DecidableEq

/-- A deferred cleanup (HandlerIgniterOnDomClearFn), modelled by an id
and its outcome when fired. -/
structure DomIgniter where
  id : Nat
  fn : Except Err Unit
deriving DecidableEq

/-- The value returned by preparePartialTransfer. -/
structure PrepRet where
  state : Option Nat
  ignitersOnPathUnmatch : Option (List Igniter)
  igniterOnDomClear : Option DomIgniter

/-- The next-path information handed to the outgoing controller. -/
structure NextPathInfo where
  raw : String
  fixed : String
  params : Params

/-- The page-controller lifecycle surface (HandlerInterface). Special
handlers are embedded with the same record; their partial/in-page entries
are simply never invoked by the orchestrator. -/
structure Handler where
  id : Nat
  cleanupFull : Except Err Unit
  getTitle : Except Err (Option String)
  getHtmlAssetPath : Except Err (Option String)
  renderingFull : Except Err Unit
  canPartialTransferToNextPath : NextPathInfo → Except Err Bool
  canPartialReceiveFromPrevPath : Except Err Bool
  preparePartialTransfer : NextPathInfo → Except Err PrepRet
  renderingPartial : Option Nat → Except Err Unit
  canInpageTransferTo : Params → Except Err Bool
  renderingInpage : Params → Except Err Unit

/-- The context handed to a handler factory (HandlerFactoryContext). -/
structure Ctx where
  nextRawPath : String
  nextFixedPath : String
  nextParams : Params
  prevRawPath : Option String
  prevFixedPath : Option String
  prevParams : Option Params

/-- A handler factory (HandlerFactoryInterface); entities are irrelevant
to control flow and are omitted from the embedding. -/
structure HandlerFactory where
  create : Ctx → Except Err Handler

/-- A special handler factory (SpecialHandlerFactoryInterface). -/
structure SpecialHandlerFactory where
  create : Except Err Handler

/-- The Navigation State (prevInfo). -/
structure Info where
  rawPath : String
  fixedPath : String
  params : Params
deriving DecidableEq

/-- Observable lifecycle events recorded by the embedding, in the order
the source performs them. fullStart marks entry into transitionerFull. -/
inductive Ev : Type where
  | unmatchFire (id : Nat)
  | domClearFire (id : Nat)
  | igniterMerged (id : Nat)
  | domClearMerged (id : Nat)
  | cleanupFull (hid : Nat)
  | setTitle (t : String)
  | loadHtml (path : String)
  | clearSurface
  | renderingFull (hid : Nat)
  | renderingPartial (hid : Nat)
  | renderingInpage (hid : Nat)
  | preparePartial (hid : Nat)
  | fullStart
deriving DecidableEq, Repr

/-- The Navigator's mutable state. -/
structure NavSt where
  prevInfo : Option Info
  prevHandler : Option Handler
  ignitersOnPathUnmatch : List Igniter
  ignitersOnDomClear : List DomIgniter
  docTitle : String

/-- The Navigator's immutable collaborators: the router, the base title,
and the asset loader's loadHtml outcome per asset path. -/
structure NavEnv where
  router : Router HandlerFactory SpecialHandlerFactory
  baseTitle : Option String
  loadHtml : String → Except Err Unit

/-- Result of one Navigator method: successor state, trace, outcome. -/
abbrev NavRes (γ : Type) := NavSt × List Ev × Except Err γ

/-- The document.title computation of transitionerFull, including the JS
truthiness of empty strings in baseTitle and title. -/
def titleString (baseTitle title : Option String) : String :=
  baseTitle.getD "" ++
    (if baseTitle.getD "" ≠ "" ∧ title.getD "" ≠ "" then " - " else "") ++
    title.getD ""

/-! ### Navigator: pattern matching of scope watchers -/

/-- The index loop of patternMatchChecker: a wildcard matches the rest, a
parameter matches one segment, a literal must be equal. Only reached when
the guarded length conditions hold. -/
def pmcLoop : List String → List String → Bool
  | [], _ => true
  | p :: ps, path =>
    if p = "*" then true
    else if startsWithColon p then pmcLoop ps path.tail
    else if path.head? = some p then pmcLoop ps path.tail
    else false

/-- Navigator.patternMatchChecker on already-split pattern and path. -/
def patternMatchChecker (pattern path : List String) : Bool :=
  if pattern.length = 0 ∧ path.length = 0 then true
  else if pattern.length < path.length ∧ pattern.getLast? ≠ some ("*") then false
  else if pattern.length > path.length then false
  else pmcLoop pattern path

/-! ### Navigator: watcher and deferred-cleanup flushing -/

/-- Keep predicate of igniteIgniterOnPathUnmatch for one watcher. -/
def igniterKept (nextPathSplited : List String) (ig : Igniter) : Bool :=
  patternMatchChecker (splitSegs (Router.pathNormalize ig.pattern)) nextPathSplited

/-- Navigator.igniteIgniterOnPathUnmatch: fire and drop every watcher
whose pattern no longer matches the new path, keep the others in order;
callback errors are logged and swallowed. -/
def igniteIgniterOnPathUnmatch (nextPath : String) (s : NavSt) : NavRes Unit :=
  let nextPathSplited := splitSegs nextPath
  ({ s with ignitersOnPathUnmatch :=
      s.ignitersOnPathUnmatch.filter (fun ig => igniterKept nextPathSplited ig) },
   (s.ignitersOnPathUnmatch.filter (fun ig => ¬ igniterKept nextPathSplited ig)).map
      (fun ig => Ev.unmatchFire ig.id),
   .ok ())

/-- The state after the stale-watcher flush against a normalized path. -/
def flushedSt (nextPath : String) (s : NavSt) : NavSt :=
  { s with ignitersOnPathUnmatch :=
      s.ignitersOnPathUnmatch.filter (fun ig => igniterKept (splitSegs nextPath) ig) }

/-- The events fired by the stale-watcher flush against a normalized path. -/
def firedEvs (nextPath : String) (s : NavSt) : List Ev :=
  (s.ignitersOnPathUnmatch.filter
      (fun ig => ¬ igniterKept (splitSegs nextPath) ig)).map
    (fun ig => Ev.unmatchFire ig.id)

/-- Navigator.igniteIgnitersOnPathUnmatchAll: fire every watcher in list
order and clear the list; callback errors are swallowed. -/
def igniteIgnitersOnPathUnmatchAll (s : NavSt) : NavRes Unit :=
  ({ s with ignitersOnPathUnmatch := [] },
   s.ignitersOnPathUnmatch.map (fun ig => Ev.unmatchFire ig.id),
   .ok ())

/-- Navigator.igniteIgnitersOnDomClearAll: fire every deferred cleanup in
list order and clear the list; callback errors are swallowed. -/
def igniteIgnitersOnDomClearAll (s : NavSt) : NavRes Unit :=
  ({ s with ignitersOnDomClear := [] },
   s.ignitersOnDomClear.map (fun ig => Ev.domClearFire ig.id),
   .ok ())

/-! ### Navigator: the three transition tiers -/

/-- Navigator.transitionerInpage: returns false when not applicable (no
previous state, different fixedPath, or capability false), throws when
the capability check or the in-page render throws, and on success
replaces only the Navigation State, keeping the handler. -/
def transitionerInpage (nextInfo : Info) (s : NavSt) : NavRes Bool :=
  match s.prevInfo with
  | none => (s, [], .ok false)
  | some prev =>
    if prev.fixedPath ≠ nextInfo.fixedPath then (s, [], .ok false)
    else
      match s.prevHandler with
      | none => (s, [], .error .nullPrevHandler)
      | some ph =>
        match Handler.canInpageTransferTo ph nextInfo.params with
        | .error er => (s, [], .error er)
        | .ok false => (s, [], .ok false)
        | .ok true =>
          match Handler.renderingInpage ph nextInfo.params with
          | .error er => (s, [Ev.renderingInpage ph.id], .error er)
          | .ok _ =>
            let newInfo : Option Info :=
              some ⟨nextInfo.rawPath, nextInfo.fixedPath, nextInfo.params⟩
            ({ s with prevInfo := newInfo },
             [Ev.renderingInpage ph.id], .ok true)

/-- Navigator.transitionerPartial: requires a previous state and both
capability checks; prepares the handoff on the outgoing handler (merging
its watchers and deferred cleanup into the orchestrator before the
incoming render runs), renders partially on the incoming handler, and
replaces the Navigation State and the current handler. -/
def transitionerPartial (nextHandler : Handler) (nextInfo : Info) (s : NavSt) :
    NavRes Bool :=
  match s.prevInfo with
  | none => (s, [], .ok false)
  | some _ =>
    match s.prevHandler with
    | none => (s, [], .error .nullPrevHandler)
    | some ph =>
      match Handler.canPartialTransferToNextPath ph
          ⟨nextInfo.rawPath, nextInfo.fixedPath, nextInfo.params⟩ with
      | .error er => (s, [], .error er)
      | .ok false => (s, [], .ok false)
      | .ok true =>
        match Handler.canPartialReceiveFromPrevPath nextHandler with
        | .error er => (s, [], .error er)
        | .ok false => (s, [], .ok false)
        | .ok true =>
          match Handler.preparePartialTransfer ph
              ⟨nextInfo.rawPath, nextInfo.fixedPath, nextInfo.params⟩ with
          | .error er => (s, [Ev.preparePartial ph.id], .error er)
          | .ok ret =>
            let newIgn := ret.ignitersOnPathUnmatch.getD []
            let newDom := match ret.igniterOnDomClear with
              | some d => [d]
              | none => []
            let s1 := { s with
              ignitersOnPathUnmatch := s.ignitersOnPathUnmatch ++ newIgn,
              ignitersOnDomClear := s.ignitersOnDomClear ++ newDom }
            let tPrep := Ev.preparePartial ph.id ::
              (newIgn.map (fun ig => Ev.igniterMerged ig.id) ++
               newDom.map (fun d => Ev.domClearMerged d.id))
            match Handler.renderingPartial nextHandler ret.state with
            | .error er => (s1, tPrep ++ [Ev.renderingPartial nextHandler.id], .error er)
            | .ok _ =>
              let newInfo : Option Info :=
                some ⟨nextInfo.rawPath, nextInfo.fixedPath, nextInfo.params⟩
              ({ s1 with prevInfo := newInfo, prevHandler := some nextHandler },
               tPrep ++ [Ev.renderingPartial nextHandler.id], .ok true)

/-- Navigator.transitionerFull: flush all remaining scope watchers, then
all deferred cleans, then cleanupFull of the outgoing handler (errors
swallowed), then resolve and apply title and asset (either loading the
HTML asset or clearing the surface), then renderingFull on the incoming
handler; on success replace the Navigation State (null for special
targets) and the current handler. -/
def transitionerFull (env : NavEnv) (nextHandler : Handler) (nextInfo : Option Info)
    (s : NavSt) : NavRes Unit :=
  let r1 := igniteIgnitersOnPathUnmatchAll s
  let r2 := igniteIgnitersOnDomClearAll r1.1
  let s2 := r2.1
  let tCleanup := match s2.prevHandler with
    | some ph => [Ev.cleanupFull ph.id]
    | none => []
  let t0 := Ev.fullStart :: (r1.2.1 ++ r2.2.1 ++ tCleanup)
  match Handler.getTitle nextHandler with
  | .error er => (s2, t0, .error er)
  | .ok title =>
    let newTitle := titleString env.baseTitle title
    let s3 := { s2 with docTitle := newTitle }
    let t1 := t0 ++ [Ev.setTitle newTitle]
    match Handler.getHtmlAssetPath nextHandler with
    | .error er => (s3, t1, .error er)
    | .ok htmlAssetPath =>
      let surf : List Ev × Except Err Unit := match htmlAssetPath with
        | some p => ([Ev.loadHtml p], env.loadHtml p)
        | none => ([Ev.clearSurface], .ok ())
      match surf.2 with
      | .error er => (s3, t1 ++ surf.1, .error er)
      | .ok _ =>
        match Handler.renderingFull nextHandler with
        | .error er =>
          (s3, t1 ++ surf.1 ++ [Ev.renderingFull nextHandler.id], .error er)
        | .ok _ =>
          ({ s3 with prevInfo := nextInfo, prevHandler := some nextHandler },
           t1 ++ surf.1 ++ [Ev.renderingFull nextHandler.id], .ok ())

/-! ### Navigator: transitions to special pages and error handling -/

/-- Navigator.transitionToSpecial: look up the special factory, create
the special handler, and run a full transition with a null Navigation
State; a missing special route clears the state and throws. -/
def transitionToSpecial (env : NavEnv) (pageName : String) (s : NavSt) : NavRes Unit :=
  match env.router.findSpecialHandlerFactory pageName with
  | some shf =>
    match SpecialHandlerFactory.create shf with
    | .error er => (s, [], .error er)
    | .ok specialHandler => transitionerFull env specialHandler none s
  | none =>
    ({ s with prevHandler := none, prevInfo := none }, [],
     .error (.specialNotFound pageName))

/-- Navigator.transitionerToSpecialWithErrorHandling: on failure of a
non-error special transition, transition to the error page and rethrow
the original failure; a failing transition to the error page itself is
rethrown with no further attempt. -/
def transitionerToSpecialWithErrorHandling (env : NavEnv) (pageName : String)
    (s : NavSt) : NavRes Unit :=
  match transitionToSpecial env pageName s with
  | (s1, t1, .ok u) => (s1, t1, .ok u)
  | (s1, t1, .error er) =>
    if pageName ≠ "error" then
      match transitionToSpecial env "error" s1 with
      | (s2, t2, .ok _) => (s2, t1 ++ t2, .error er)
      | (s2, t2, .error er2) => (s2, t1 ++ t2, .error er2)
    else (s1, t1, .error er)

/-- The factory context built at the construction step of the
transitioner. -/
def mkCtx (nextInfo : Info) (s : NavSt) : Ctx :=
  ⟨nextInfo.rawPath, nextInfo.fixedPath, nextInfo.params,
   s.prevInfo.map (fun i => i.rawPath),
   s.prevInfo.map (fun i => i.fixedPath),
   s.prevInfo.map (fun i => i.params)⟩

/-- Navigator.transitioner: normalize and resolve the path (unresolved
paths go to the notfound special page), flush stale scope watchers, then
attempt the tiers: an in-page attempt that fails or is inapplicable leads
to handler construction; the partial tier runs only when the in-page tier
neither fired nor threw; the full tier runs whenever no earlier tier
fired, and its errors propagate. -/
def transitioner (env : NavEnv) (nextPath0 : String) (s : NavSt) : NavRes Unit :=
  let nextPath := Router.pathNormalize nextPath0
  match env.router.findHandlerFactory nextPath with
  | none => transitionToSpecial env "notfound" s
  | some foundHandler =>
    let nextInfo : Info := ⟨nextPath, foundHandler.fixedPath, foundHandler.params⟩
    let rI := igniteIgniterOnPathUnmatch nextInfo.rawPath s
    let s1 := rI.1
    let tI := rI.2.1
    match transitionerInpage nextInfo s1 with
    | (s2, t2, .ok true) => (s2, tI ++ t2, .ok ())
    | (s2, t2, .ok false) =>
      match HandlerFactory.create foundHandler.handlerFactory (mkCtx nextInfo s2) with
      | .error er => (s2, tI ++ t2, .error er)
      | .ok nextHandler =>
        match transitionerPartial nextHandler nextInfo s2 with
        | (s3, t3, .ok true) => (s3, tI ++ t2 ++ t3, .ok ())
        | (s3, t3, .ok false) =>
          let r4 := transitionerFull env nextHandler (some nextInfo) s3
          (r4.1, tI ++ t2 ++ t3 ++ r4.2.1, r4.2.2)
        | (s3, t3, .error _) =>
          -- a throwing partial attempt still falls through to the full tier
          let r4 := transitionerFull env nextHandler (some nextInfo) s3
          (r4.1, tI ++ t2 ++ t3 ++ r4.2.1, r4.2.2)
    | (s2, t2, .error _) =>
      -- a throwing in-page attempt skips the partial tier but still
      -- constructs the handler and falls through to the full tier
      match HandlerFactory.create foundHandler.handlerFactory (mkCtx nextInfo s2) with
      | .error er => (s2, tI ++ t2, .error er)
      | .ok nextHandler =>
        let r4 := transitionerFull env nextHandler (some nextInfo) s2
        (r4.1, tI ++ t2 ++ r4.2.1, r4.2.2)

/-- Navigator.transitionerWithErrorHandling: failures of the transitioner
are logged and answered with a transition to the error special page; the
original failure is not rethrown, but a failure of the error transition
itself propagates. -/
def transitionerWithErrorHandling (env : NavEnv) (nextPath : String) (s : NavSt) :
    NavRes Unit :=
  match transitioner env nextPath s with
  | (s1, t1, .ok u) => (s1, t1, .ok u)
  | (s1, t1, .error _er) =>
    match transitionerToSpecialWithErrorHandling env "error" s1 with
    | (s2, t2, r2) => (s2, t1 ++ t2, r2)

/-- Navigator.navigate without the history push (the browser history is
outside the model). -/
def navigate (env : NavEnv) (path : String) (s : NavSt) : NavRes Unit :=
  transitionerWithErrorHandling env path s

/-- Navigator.navigateSpecial. -/
def navigateSpecial (env : NavEnv) (target : String) (s : NavSt) : NavRes Unit :=
  transitionerToSpecialWithErrorHandling env target s

/-- A sequence of navigations, accumulating the trace. -/
def runSeq (env : NavEnv) : List String → NavSt → NavSt × List Ev
  | [], s => (s, [])
  | p :: rest, s =>
    let r1 := transitionerWithErrorHandling env p s
    let r2 := runSeq env rest r1.1
    (r2.1, r1.2.1 ++ r2.2)

/-! ### Concrete fixtures used by counterexamples and witnesses -/

/-- A well-behaved controller: every method succeeds, every capability
predicate answers false, title and asset path are absent. -/
def baseHandler (n : Nat) : Handler where
  id := n
  cleanupFull := .ok ()
  getTitle := .ok none
  getHtmlAssetPath := .ok none
  renderingFull := .ok ()
  canPartialTransferToNextPath := fun _ => .ok false
  canPartialReceiveFromPrevPath := .ok false
  preparePartialTransfer := fun _ => .ok ⟨none, none, none⟩
  renderingPartial := fun _ => .ok ()
  canInpageTransferTo := fun _ => .ok false
  renderingInpage := fun _ => .ok ()

/-- A factory that returns a fixed controller. -/
def constFactory (h : Handler) : HandlerFactory :=
  ⟨fun _ => .ok h⟩

/-- A special factory that returns a fixed controller. -/
def constSpecialFactory (h : Handler) : SpecialHandlerFactory :=
  ⟨.ok h⟩

/-- An initial Navigator state with a given current page. -/
def stWith (info : Option Info) (h : Option Handler) : NavSt :=
  ⟨info, h, [], [], ""⟩

/-- Count of one event in a trace. -/
def countEv (e : Ev) (t : List Ev) : Nat :=
  t.countP (fun x => decide (x = e))

/-- Number of watchers with a given callback id in a watcher list. -/
def cntW (w : Nat) (l : List Igniter) : Nat :=
  l.countP (fun ig => decide (ig.id = w))

/-- Number of firings of the watcher callback with a given id. -/
def firesW (w : Nat) (t : List Ev) : Nat :=
  countEv (Ev.unmatchFire w) t

/-- Number of merges of watchers with a given id into the orchestrator. -/
def mergesW (w : Nat) (t : List Ev) : Nat :=
  countEv (Ev.igniterMerged w) t

/-- Watcher-count conservation across one operation: a watcher id leaves
the list exactly by firing and enters it exactly by merging. -/
def Conserves (w : Nat) (ignIn ignOut : List Igniter) (t : List Ev) : Prop :=
  cntW w ignIn + mergesW w t = cntW w ignOut + firesW w t

/-- A controller whose in-page tier is applicable but whose in-page
render throws. -/
def fxInpageThrow : Handler :=
  { baseHandler 1 with
      canInpageTransferTo := fun _ => .ok true,
      renderingInpage := fun _ => .error (.thrown ("inpage render failed")) }

/-- An environment with the single route a bound to a well-behaved
controller and no special routes at all. -/
def fxEnvA : NavEnv :=
  ⟨(emptyRouter : Router HandlerFactory SpecialHandlerFactory).registerHandlerFactory
      ("a") (constFactory (baseHandler 2)),
   none, fun _ => .ok ()⟩

/-- A state currently showing route a through fxInpageThrow. -/
def fxS0 : NavSt := stWith (some ⟨"a", "a", []⟩) (some fxInpageThrow)

/-- A controller that accepts in-page transitions and renders them
successfully. -/
def fxInpageOk : Handler :=
  { baseHandler 3 with canInpageTransferTo := fun _ => .ok true }

/-- An environment with the single parametric route enter/:roomid. -/
def fxEnvEnter : NavEnv :=
  ⟨(emptyRouter : Router HandlerFactory SpecialHandlerFactory).registerHandlerFactory
      ("enter/:roomid") (constFactory (baseHandler 4)),
   none, fun _ => .ok ()⟩

/-- A state currently showing enter/physics-lab through fxInpageOk. -/
def fxSEnter : NavSt :=
  stWith (some ⟨"enter/physics-lab", "enter/:roomid", [("roomid", "physics-lab")]⟩)
    (some fxInpageOk)

/-- An environment with no routes and no special routes. -/
def fxEmptyEnv : NavEnv :=
  ⟨(emptyRouter : Router HandlerFactory SpecialHandlerFactory), none, fun _ => .ok ()⟩

/-- An environment whose only route table entry is the error special
page, bound to a well-behaved controller. -/
def fxErrOnlyEnv : NavEnv :=
  ⟨(emptyRouter : Router HandlerFactory SpecialHandlerFactory).registerSpecialRoute
      ("error") (constSpecialFactory (baseHandler 5)),
   none, fun _ => .ok ()⟩

/-- An environment whose only route table entry is the notfound special
page, bound to a well-behaved controller. -/
def fxNfOnlyEnv : NavEnv :=
  ⟨(emptyRouter : Router HandlerFactory SpecialHandlerFactory).registerSpecialRoute
      ("notfound") (constSpecialFactory (baseHandler 6)),
   none, fun _ => .ok ()⟩

/-- A controller whose full render throws. -/
def fxFullThrow : Handler :=
  { baseHandler 7 with renderingFull := .error (.thrown ("full render failed")) }

/-- An environment with the route b bound to the full-render-throwing
controller and a healthy error special page. -/
def fxEnvB : NavEnv :=
  ⟨((emptyRouter : Router HandlerFactory SpecialHandlerFactory).registerHandlerFactory
      ("b") (constFactory fxFullThrow)).registerSpecialRoute
      ("error") (constSpecialFactory (baseHandler 8)),
   none, fun _ => .ok ()⟩

/-- A state currently showing a page x through a quiet controller. -/
def fxSWarm : NavSt := stWith (some ⟨"x", "x", []⟩) (some (baseHandler 9))

/-- A scope watcher for the pattern a with callback id 11. -/
def fxWatcher : Igniter := ⟨"a", 11, .ok ()⟩

/-- A state currently showing a, with the watcher for a pending. -/
def fxSWatch : NavSt := ⟨some ⟨"a", "a", []⟩, some (baseHandler 10), [fxWatcher], [], ""⟩

/-- A scope watcher for the pattern b with callback id 14. -/
def fxWatcherB : Igniter := ⟨"b", 14, .ok ()⟩

/-- A state currently showing x, with the watcher for b pending. -/
def fxSWatchB : NavSt :=
  ⟨some ⟨"x", "x", []⟩, some (baseHandler 10), [fxWatcherB], [], ""⟩

/-- An outgoing controller that accepts a partial handoff and donates
fxWatcher to the orchestrator during preparePartialTransfer. -/
def fxPartFrom : Handler :=
  { baseHandler 12 with
      canPartialTransferToNextPath := fun _ => .ok true,
      preparePartialTransfer := fun _ => .ok ⟨none, some [fxWatcher], none⟩ }

/-- An incoming controller that accepts a partial handoff. -/
def fxPartTo : Handler :=
  { baseHandler 13 with canPartialReceiveFromPrevPath := .ok true }

/-- An environment with the single route p bound to fxPartTo and no
special routes at all. -/
def fxPartEnv : NavEnv :=
  ⟨(emptyRouter : Router HandlerFactory SpecialHandlerFactory).registerHandlerFactory
      ("p") (constFactory fxPartTo),
   none, fun _ => .ok ()⟩

/-- A state currently showing x through fxPartFrom, with no watchers
pending yet. -/
def fxSPart : NavSt := stWith (some ⟨"x", "x", []⟩) (some fxPartFrom)

/-- An outgoing controller that accepts the partial handoff with a quiet
prepare step. -/
def fxPartClaimFrom : Handler :=
  { baseHandler 15 with
      canPartialTransferToNextPath := fun _ => .ok true,
      preparePartialTransfer := fun _ => .ok ⟨none, none, none⟩ }

/-- An incoming controller that accepts the partial handoff but throws
in the partial render; its full render succeeds. -/
def fxPartThrowTo : Handler :=
  { baseHandler 16 with
      canPartialReceiveFromPrevPath := .ok true,
      renderingPartial := fun _ => .error (.thrown ("partial render failed")) }

/-- An environment with the single route q bound to fxPartThrowTo and no
special routes. -/
def fxPartThrowEnv : NavEnv :=
  ⟨(emptyRouter : Router HandlerFactory SpecialHandlerFactory).registerHandlerFactory
      ("q") (constFactory fxPartThrowTo),
   none, fun _ => .ok ()⟩

/-- A state currently showing x through fxPartClaimFrom. -/
def fxSPartThrow : NavSt := stWith (some ⟨"x", "x", []⟩) (some fxPartClaimFrom)

/-! ### Association-list lemmas -/

section AssocLemmas

variable {β : Type u}

@[simp] theorem alookup_aset_self (l : List (String × β)) (k : String) (v : β) :
    alookup (aset l k v) k = some v := by
  induction l with
  | nil => simp [aset, alookup]
  | cons kv rest ih =>
    obtain ⟨k0, v0⟩ := kv
    by_cases h : k0 = k
    · simp [aset, alookup, h]
    · simp [aset, alookup, h, ih]

theorem alookup_aset_ne (l : List (String × β)) (k k0 : String) (v : β)
    (h : k0 ≠ k) : alookup (aset l k v) k0 = alookup l k0 := by
  have h2 : k ≠ k0 := Ne.symm h
  induction l with
  | nil => simp [aset, alookup, h2]
  | cons kv rest ih =>
    obtain ⟨k1, v1⟩ := kv
    by_cases h1 : k1 = k
    · subst h1
      simp [aset, alookup, h2]
    · simp [aset, alookup, h1, ih]

theorem aset_aset (l : List (String × β)) (k : String) (v1 v2 : β) :
    aset (aset l k v1) k v2 = aset l k v2 := by
  induction l with
  | nil => simp [aset]
  | cons kv rest ih =>
    obtain ⟨k1, v1'⟩ := kv
    by_cases h1 : k1 = k
    · simp [aset, h1]
    · simp [aset, h1, ih]

/-- Every binding of an updated table is the update or an original binding. -/
theorem mem_aset (l : List (String × β)) (k : String) (v : β) (k0 : String) (v0 : β)
    (h : (k0, v0) ∈ aset l k v) : (k0 = k ∧ v0 = v) ∨ (k0, v0) ∈ l := by
  induction l with
  | nil =>
    simp [aset] at h
    exact Or.inl ⟨h.1, h.2⟩
  | cons kv rest ih =>
    obtain ⟨k1, v1⟩ := kv
    by_cases h1 : k1 = k
    · subst h1
      simp [aset] at h
      rcases h with h | h
      · exact Or.inl ⟨h.1, h.2⟩
      · exact Or.inr (List.mem_cons_of_mem _ h)
    · simp [aset, h1] at h
      rcases h with h | h
      · exact Or.inr (by simp [h])
      · rcases ih h with h2 | h2
        · exact Or.inl h2
        · exact Or.inr (List.mem_cons_of_mem _ h2)

/-- A successful lookup is a binding of the table. -/
theorem alookup_mem (l : List (String × β)) (k : String) (v : β)
    (h : alookup l k = some v) : (k, v) ∈ l := by
  induction l with
  | nil => simp [alookup] at h
  | cons kv rest ih =>
    obtain ⟨k1, v1⟩ := kv
    by_cases h1 : k1 = k
    · subst h1
      simp [alookup] at h
      simp [h]
    · simp [alookup, h1] at h
      exact List.mem_cons_of_mem _ (ih h)

end AssocLemmas

/-! ### Trie node simp lemmas -/

@[simp] theorem RNode.factory_node {α : Type u} (f : Option α) (n : Option String)
    (wc ph : Option (RNode α)) (ch : List (String × RNode α)) :
    RNode.factory (.node f n wc ph ch) = f := rfl

@[simp] theorem RNode.phName_node {α : Type u} (f : Option α) (n : Option String)
    (wc ph : Option (RNode α)) (ch : List (String × RNode α)) :
    RNode.phName (.node f n wc ph ch) = n := rfl

@[simp] theorem RNode.childWc_node {α : Type u} (f : Option α) (n : Option String)
    (wc ph : Option (RNode α)) (ch : List (String × RNode α)) :
    RNode.childWc (.node f n wc ph ch) = wc := rfl

@[simp] theorem RNode.childPh_node {α : Type u} (f : Option α) (n : Option String)
    (wc ph : Option (RNode α)) (ch : List (String × RNode α)) :
    RNode.childPh (.node f n wc ph ch) = ph := rfl

@[simp] theorem RNode.children_node {α : Type u} (f : Option α) (n : Option String)
    (wc ph : Option (RNode α)) (ch : List (String × RNode α)) :
    RNode.children (.node f n wc ph ch) = ch := rfl

/-! ### Last-write-wins registration (claim C9) -/

/-- Registering twice along the same segment list leaves exactly the
state of the second registration. -/
theorem registerSegs_twice {α : Type u} (s : List String) (r : RNode α) (f1 f2 : α) :
    registerSegs (registerSegs r s f1) s f2 = registerSegs r s f2 := by
  induction s generalizing r with
  | nil =>
    obtain ⟨f0, n0, wc0, ph0, ch0⟩ := r
    simp [registerSegs]
  | cons elm rest ih =>
    obtain ⟨f0, n0, wc0, ph0, ch0⟩ := r
    by_cases h1 : elm = "*"
    · simp [registerSegs, h1]
    · by_cases h2 : startsWithColon elm = true
      · simp [registerSegs, h1, h2]
      · simp only [registerSegs, h1, h2, if_false, Bool.false_eq_true,
          RNode.children_node, alookup_aset_self]
        rw [ih, aset_aset]

/-! ### Trie lookup correctness (claim C3) -/

theorem inv_empty {α : Type u} : NodeInv (emptyNode : RNode α) := by
  refine NodeInv.mk _ _ _ _ _ ?_ ?_ ?_ ?_ <;> intros <;> simp_all

theorem inv_lookup_special {α : Type u} (r : RNode α) (k : String)
    (hinv : NodeInv r) (hk : isSpecialSeg k = true) :
    alookup r.children k = none := by
  rcases hlook : alookup r.children k with _ | c
  · rfl
  · cases hinv with
    | mk f n wc ph ch hch1 hch2 hph hwc =>
      have hmem := alookup_mem ch k c hlook
      have := hch1 k c hmem
      rw [hk] at this
      exact absurd this (by simp)

theorem registerSegs_phName {α : Type u} (l : List String) (r : RNode α) (f : α) :
    (registerSegs r l f).phName = r.phName := by
  cases r with
  | node f0 n0 wc0 ph0 ch0 =>
    cases l with
    | nil => simp [registerSegs]
    | cons elm rest =>
      by_cases h1 : elm = "*"
      · simp [registerSegs, h1]
      · by_cases h2 : startsWithColon elm = true
        · simp [registerSegs, h1, h2]
        · simp [registerSegs, h1, h2]

theorem inv_register {α : Type u} (l : List String) (r : RNode α) (f : α)
    (hinv : NodeInv r) : NodeInv (registerSegs r l f) := by
  induction l generalizing r with
  | nil =>
    cases r with
    | node f0 n0 wc0 ph0 ch0 =>
      cases hinv with
      | mk _ _ _ _ _ hch1 hch2 hph hwc =>
        exact NodeInv.mk _ _ _ _ _ hch1 hch2 hph hwc
  | cons elm rest ih =>
    cases r with
    | node f0 n0 wc0 ph0 ch0 =>
      cases hinv with
      | mk _ _ _ _ _ hch1 hch2 hph hwc =>
        by_cases h1 : elm = "*"
        · simp only [registerSegs, h1, if_true]
          refine NodeInv.mk _ _ _ _ _ hch1 hch2 hph ?_
          intro c hc
          simp only [Option.some.injEq] at hc
          subst hc
          refine NodeInv.mk _ _ _ _ _ ?_ ?_ ?_ ?_ <;> intros <;> simp_all
        · by_cases h2 : startsWithColon elm = true
          · simp only [registerSegs, h1, h2, if_false, if_true, Bool.false_eq_true]
            refine NodeInv.mk _ _ _ _ _ hch1 hch2 ?_ hwc
            intro c hc
            simp only [Option.some.injEq] at hc
            subst hc
            refine ih _ ?_
            refine NodeInv.mk _ _ _ _ _ ?_ ?_ ?_ ?_ <;> intros <;> simp_all
          · simp only [registerSegs, h1, h2, if_false, Bool.false_eq_true]
            refine NodeInv.mk _ _ _ _ _ ?_ ?_ hph hwc
            · intro k c hkc
              rcases mem_aset ch0 elm _ k c hkc with ⟨rfl, -⟩ | hold
              · simp [isSpecialSeg, h1, h2]
              · exact hch1 k c hold
            · intro k c hkc
              rcases mem_aset ch0 elm _ k c hkc with ⟨heqk, heqc⟩ | hold
              · subst heqc
                refine ih _ ?_
                rcases hlook : alookup ch0 elm with _ | c0
                · simp only [hlook]
                  exact inv_empty
                · simp only [hlook]
                  exact hch2 elm c0 (alookup_mem ch0 elm c0 hlook)
              · exact hch2 k c hold

theorem phFreeFor_blank {α : Type u} (rest : List String) (f : Option α)
    (n : Option String) : phFreeFor (RNode.node f n none none []) rest := by
  cases rest with
  | nil => trivial
  | cons s r2 =>
    by_cases h1 : s = "*"
    · simp [phFreeFor, h1]
    · by_cases h2 : startsWithColon s = true
      · simp [phFreeFor, h1, h2]
      · simp [phFreeFor, h1, h2, alookup]

theorem wf_star_tail (s : String) (rest : List String)
    (h : "*" ∉ (s :: rest).dropLast) : "*" ∉ rest.dropLast := by
  cases rest with
  | nil => simp
  | cons x xs =>
    intro hmem
    exact h (by
      rw [show (s :: x :: xs).dropLast = s :: (x :: xs).dropLast from rfl]
      exact List.mem_cons_of_mem _ hmem)

/-- Registering a well-formed pattern into a trie with no parameter
child along its wildcard prefix makes that pattern's own path
canonically resolve to the registered factory. -/
theorem selfResolves_register {α : Type u} (p : List String) (r : RNode α) (f : α)
    (hinv : NodeInv r) (hwf : "*" ∉ p.dropLast) (hphf : phFreeFor r p) :
    selfResolves (registerSegs r p f) p f := by
  induction p generalizing r with
  | nil =>
    cases r with
    | node f0 n0 wc0 ph0 ch0 => simp [registerSegs, selfResolves]
  | cons s rest ih =>
    cases r with
    | node f0 n0 wc0 ph0 ch0 =>
      by_cases h1 : s = "*"
      · subst h1
        have hrest : rest = [] := by
          cases rest with
          | nil => rfl
          | cons x xs =>
            exfalso
            exact hwf (by
              rw [show ("*" :: x :: xs).dropLast = "*" :: (x :: xs).dropLast from rfl]
              exact List.mem_cons_self _ _)
        subst hrest
        have hph0 : ph0 = none := by
          simpa [phFreeFor] using hphf
        simp only [registerSegs, if_true]
        simp only [selfResolves, if_true]
        refine ⟨trivial, ?_, ?_, ?_⟩
        · simpa using inv_lookup_special _ _ hinv (by simp [isSpecialSeg])
        · simpa using hph0
        · exact ⟨_, rfl, rfl⟩
      · by_cases h2 : startsWithColon s = true
        · simp only [registerSegs, h1, h2, if_false, if_true, Bool.false_eq_true]
          simp only [selfResolves, h1, h2, if_false, if_true, Bool.false_eq_true]
          refine ⟨?_, ?_⟩
          · simpa using inv_lookup_special _ _ hinv (by simp [isSpecialSeg, h2])
          · refine ⟨registerSegs (RNode.node none (some (tailStr s)) none none [])
                rest f, by simp, ?_, ?_⟩
            · rw [registerSegs_phName]
              rfl
            · exact ih _ (NodeInv.mk _ _ _ _ _ (by intros; simp_all)
                (by intros; simp_all) (by intros; simp_all) (by intros; simp_all))
                (wf_star_tail s rest hwf) (phFreeFor_blank rest none (some (tailStr s)))
        · simp only [registerSegs, h1, h2, if_false, Bool.false_eq_true]
          simp only [selfResolves, h1, h2, if_false, Bool.false_eq_true]
          refine ⟨registerSegs (match alookup ch0 s with
            | some c => c
            | none => emptyNode) rest f, ?_, ?_⟩
          · simp [alookup_aset_self ch0 s _]
          · rcases hlook : alookup ch0 s with _ | c0
            · simp only [hlook]
              refine ih _ inv_empty (wf_star_tail s rest hwf) ?_
              exact phFreeFor_blank rest none none
            · simp only [hlook]
              have hc0inv : NodeInv c0 := by
                cases hinv with
                | mk _ _ _ _ _ hch1 hch2 hph hwc =>
                  exact hch2 s c0 (alookup_mem ch0 s c0 hlook)
              refine ih _ hc0inv (wf_star_tail s rest hwf) ?_
              have := hphf
              simp only [phFreeFor, h1, h2, if_false, Bool.false_eq_true] at this
              simpa [hlook] using this

/-- Registering a pattern that does not conflict with an already
resolving pattern leaves the latter's canonical resolution intact. -/
theorem selfResolves_preserved {α : Type u} (q p : List String) (r : RNode α)
    (f g : α) (hsr : selfResolves r p f) (hcompat : conflictSegs q p = false) :
    selfResolves (registerSegs r q g) p f := by
  induction q generalizing p r with
  | nil =>
    cases p with
    | nil => simp [conflictSegs] at hcompat
    | cons s rest =>
      cases r with
      | node f0 n0 wc0 ph0 ch0 =>
        simp only [registerSegs]
        simp only [selfResolves, RNode.children_node, RNode.childPh_node,
          RNode.childWc_node] at hsr ⊢
        exact hsr
  | cons t qs ih =>
    cases p with
    | nil =>
      cases r with
      | node f0 n0 wc0 ph0 ch0 =>
        simp only [selfResolves, RNode.factory_node] at hsr
        by_cases ht1 : t = "*"
        · simp [registerSegs, selfResolves, ht1, hsr]
        · by_cases ht2 : startsWithColon t = true
          · simp [registerSegs, selfResolves, ht1, ht2, hsr]
          · simp [registerSegs, selfResolves, ht1, ht2, hsr]
    | cons s rest =>
      cases r with
      | node f0 n0 wc0 ph0 ch0 =>
        by_cases hs1 : s = "*"
        · -- the resolving pattern sits on the wildcard slot here
          subst hs1
          by_cases ht1 : t = "*"
          · subst ht1
            simp [conflictSegs, isSpecialSeg] at hcompat
          · by_cases ht2 : startsWithColon t = true
            · simp [conflictSegs, isSpecialSeg, ht2] at hcompat
            · -- t is literal: only the children table changes, at key t ≠ *
              simp only [registerSegs, ht1, ht2, if_false, Bool.false_eq_true]
              simp only [selfResolves, if_true, RNode.children_node,
                RNode.childPh_node, RNode.childWc_node] at hsr ⊢
              obtain ⟨hr0, hlook, hph, hwc⟩ := hsr
              exact ⟨hr0, by rw [alookup_aset_ne _ _ _ _ (Ne.symm ht1)]; exact hlook,
                hph, hwc⟩
        · by_cases hs2 : startsWithColon s = true
          · -- the resolving pattern sits on the parameter slot here
            by_cases ht1 : t = "*"
            · subst ht1
              simp [conflictSegs, isSpecialSeg, hs2] at hcompat
            · by_cases ht2 : startsWithColon t = true
              · simp [conflictSegs, isSpecialSeg, hs2, ht2] at hcompat
              · -- t is literal, s parametric: children change at key t ≠ s
                have hne : s ≠ t := by
                  intro heq
                  rw [← heq] at ht2
                  exact absurd hs2 (by simp [ht2])
                simp only [registerSegs, ht1, ht2, if_false, Bool.false_eq_true]
                simp only [selfResolves, hs1, hs2, if_false, if_true,
                  Bool.false_eq_true, RNode.children_node, RNode.childPh_node] at hsr ⊢
                obtain ⟨hlook, c, hc, hname, hrest⟩ := hsr
                exact ⟨by rw [alookup_aset_ne _ _ _ _ hne]; exact hlook,
                  c, hc, hname, hrest⟩
          · -- the resolving pattern takes a literal edge here
            simp only [selfResolves, hs1, hs2, if_false, Bool.false_eq_true,
              RNode.children_node] at hsr
            obtain ⟨c, hc, hrest⟩ := hsr
            by_cases ht1 : t = "*"
            · simp only [registerSegs, ht1, if_true]
              simp only [selfResolves, hs1, hs2, if_false, Bool.false_eq_true,
                RNode.children_node]
              exact ⟨c, hc, hrest⟩
            · by_cases ht2 : startsWithColon t = true
              · simp only [registerSegs, ht1, ht2, if_false, if_true,
                  Bool.false_eq_true]
                simp only [selfResolves, hs1, hs2, if_false, Bool.false_eq_true,
                  RNode.children_node]
                exact ⟨c, hc, hrest⟩
              · by_cases hts : t = s
                · subst hts
                  have hcompat2 : conflictSegs qs rest = false := by
                    simpa [conflictSegs, isSpecialSeg, ht1, ht2, hs2] using hcompat
                  simp only [registerSegs, ht1, ht2, if_false, Bool.false_eq_true,
                    RNode.children_node, hc]
                  simp only [selfResolves, hs1, hs2, if_false, Bool.false_eq_true,
                    RNode.children_node]
                  exact ⟨registerSegs c qs g, alookup_aset_self _ _ _,
                    ih rest c hrest hcompat2⟩
                · simp only [registerSegs, ht1, ht2, if_false, Bool.false_eq_true]
                  simp only [selfResolves, hs1, hs2, if_false, Bool.false_eq_true,
                    RNode.children_node]
                  exact ⟨c, by rw [alookup_aset_ne _ _ _ _ (Ne.symm hts)]; exact hc,
                    hrest⟩

/-- Registering a non-conflicting pattern never installs a parameter
child on another pattern's wildcard prefix. -/
theorem phFreeFor_preserved {α : Type u} (q p : List String) (r : RNode α) (g : α)
    (hphf : phFreeFor r p) (hcompat : conflictSegs q p = false) :
    phFreeFor (registerSegs r q g) p := by
  induction q generalizing p r with
  | nil =>
    cases p with
    | nil => trivial
    | cons s rest =>
      cases r with
      | node f0 n0 wc0 ph0 ch0 =>
        simp only [registerSegs]
        simp only [phFreeFor, RNode.childPh_node, RNode.children_node] at hphf ⊢
        exact hphf
  | cons t qs ih =>
    cases p with
    | nil => trivial
    | cons s rest =>
      cases r with
      | node f0 n0 wc0 ph0 ch0 =>
        by_cases hs1 : s = "*"
        · subst hs1
          simp only [phFreeFor, if_true, RNode.childPh_node] at hphf
          by_cases ht1 : t = "*"
          · simp [registerSegs, phFreeFor, ht1, hphf]
          · by_cases ht2 : startsWithColon t = true
            · simp [conflictSegs, isSpecialSeg, ht2] at hcompat
            · simp [registerSegs, phFreeFor, ht1, ht2, hphf]
        · by_cases hs2 : startsWithColon s = true
          · simp [phFreeFor, hs1, hs2]
          · simp only [phFreeFor, hs1, hs2, if_false, Bool.false_eq_true,
              RNode.children_node] at hphf
            by_cases ht1 : t = "*"
            · simp only [registerSegs, ht1, if_true]
              simp only [phFreeFor, hs1, hs2, if_false, Bool.false_eq_true,
                RNode.children_node]
              exact hphf
            · by_cases ht2 : startsWithColon t = true
              · simp only [registerSegs, ht1, ht2, if_false, if_true,
                  Bool.false_eq_true]
                simp only [phFreeFor, hs1, hs2, if_false, Bool.false_eq_true,
                  RNode.children_node]
                exact hphf
              · by_cases hts : t = s
                · subst hts
                  have hcompat2 : conflictSegs qs rest = false := by
                    simpa [conflictSegs, isSpecialSeg, ht1, ht2] using hcompat
                  simp only [registerSegs, ht1, ht2, if_false, Bool.false_eq_true]
                  simp only [phFreeFor, hs1, hs2, if_false, Bool.false_eq_true,
                    RNode.children_node, alookup_aset_self]
                  rcases hlook : alookup ch0 t with _ | c0
                  · simp only [hlook]
                    exact ih rest emptyNode (phFreeFor_blank rest none none) hcompat2
                  · simp only [hlook]
                    rw [hlook] at hphf
                    exact ih rest c0 hphf hcompat2
                · simp only [registerSegs, ht1, ht2, if_false, Bool.false_eq_true]
                  simp only [phFreeFor, hs1, hs2, if_false, Bool.false_eq_true,
                    RNode.children_node]
                  rw [alookup_aset_ne _ _ _ _ (Ne.symm hts)]
                  exact hphf

/-- Rebuilding a parameter segment from its captured name. -/
theorem colon_append_tail (s : String) (h : startsWithColon s = true) :
    ":" ++ tailStr s = s := by
  cases s with
  | mk data =>
    cases data with
    | nil => simp [startsWithColon] at h
    | cons c cs =>
      simp only [startsWithColon, decide_eq_true_eq] at h
      subst h
      rfl

/-- A canonically resolving pattern's own path is matched by findSegs to
its factory, its own fixed path, and the canonical parameter object. -/
theorem findSegs_selfResolves {α : Type u} (p : List String) (r : RNode α) (f : α)
    (fa : List String) (pa : List (String × String))
    (hwf : "*" ∉ p.dropLast) (hsr : selfResolves r p f) :
    findSegs r p fa pa = some ⟨f, joinSegs (fa ++ p), paramsAccum pa p⟩ := by
  induction p generalizing r fa pa with
  | nil =>
    cases r with
    | node f0 n0 wc0 ph0 ch0 =>
      simp only [selfResolves, RNode.factory_node] at hsr
      simp [findSegs, hsr, paramsAccum]
  | cons s rest ih =>
    cases r with
    | node f0 n0 wc0 ph0 ch0 =>
      by_cases hs1 : s = "*"
      · subst hs1
        simp only [selfResolves, if_true, RNode.children_node, RNode.childPh_node,
          RNode.childWc_node] at hsr
        obtain ⟨hrest, hlook, hph, w, hwcw, hwf2⟩ := hsr
        subst hrest
        simp [findSegs, hlook, hph, hwcw, hwf2, paramsAccum]
      · by_cases hs2 : startsWithColon s = true
        · simp only [selfResolves, hs1, hs2, if_false, if_true,
            Bool.false_eq_true, RNode.children_node, RNode.childPh_node] at hsr
          obtain ⟨hlook, c, hph, hname, hrest⟩ := hsr
          simp only [findSegs, RNode.children_node, RNode.childPh_node, hlook, hph,
            hname, Option.getD_some]
          rw [colon_append_tail s hs2]
          rw [ih c _ _ (wf_star_tail s rest hwf) hrest]
          simp only [paramsAccum, hs1, hs2, if_false, if_true, Bool.false_eq_true,
            List.append_assoc, List.singleton_append]
        · simp only [selfResolves, hs1, hs2, if_false, Bool.false_eq_true,
            RNode.children_node] at hsr
          obtain ⟨c, hc, hrest⟩ := hsr
          simp only [findSegs, RNode.children_node, hc]
          rw [ih c _ _ (wf_star_tail s rest hwf) hrest]
          simp only [paramsAccum, hs1, hs2, if_false, Bool.false_eq_true,
            List.append_assoc, List.singleton_append]

theorem conflictSegs_symm (a b : List String) : conflictSegs a b = conflictSegs b a := by
  induction a generalizing b with
  | nil => cases b <;> simp [conflictSegs]
  | cons s ps ih =>
    cases b with
    | nil => simp [conflictSegs]
    | cons t qs =>
      simp only [conflictSegs]
      by_cases h1 : isSpecialSeg s = true
      · by_cases h2 : isSpecialSeg t = true
        · simp [h1, h2]
        · simp [h1, h2]
      · by_cases h2 : isSpecialSeg t = true
        · simp [h1, h2]
        · by_cases h3 : s = t
          · subst h3
            simp [h1, ih]
          · simp [h1, h2, h3, Ne.symm h3]

theorem foldReg_inv {α : Type u} (L : List (String × α)) (n : RNode α)
    (hinv : NodeInv n) :
    NodeInv (L.foldl (fun m pf => registerSegs m (patSegs pf.1) pf.2) n) := by
  induction L generalizing n with
  | nil => exact hinv
  | cons pf rest ih => exact ih _ (inv_register _ _ _ hinv)

theorem foldReg_phFree {α : Type u} (L : List (String × α)) (n : RNode α)
    (p : List String) (hphf : phFreeFor n p)
    (hcompat : ∀ pf ∈ L, conflictSegs (patSegs pf.1) p = false) :
    phFreeFor (L.foldl (fun m pf => registerSegs m (patSegs pf.1) pf.2) n) p := by
  induction L generalizing n with
  | nil => exact hphf
  | cons pf rest ih =>
    exact ih _ (phFreeFor_preserved _ _ _ _ hphf (hcompat pf (by simp)))
      (fun x hx => hcompat x (List.mem_cons_of_mem _ hx))

theorem foldReg_selfRes {α : Type u} (L : List (String × α)) (n : RNode α)
    (p : List String) (f : α) (hsr : selfResolves n p f)
    (hcompat : ∀ pf ∈ L, conflictSegs (patSegs pf.1) p = false) :
    selfResolves (L.foldl (fun m pf => registerSegs m (patSegs pf.1) pf.2) n) p f := by
  induction L generalizing n with
  | nil => exact hsr
  | cons pf rest ih =>
    exact ih _ (selfResolves_preserved _ _ _ _ _ hsr (hcompat pf (by simp)))
      (fun x hx => hcompat x (List.mem_cons_of_mem _ hx))

theorem buildRouter_routes {α : Type u} {σ : Type v} (L : List (String × α)) :
    (buildRouter L : Router α σ).routes
      = L.foldl (fun m pf => registerSegs m (patSegs pf.1) pf.2) emptyNode := by
  suffices h : ∀ (r : Router α σ),
      (L.foldl (fun r pf => r.registerHandlerFactory pf.1 pf.2) r).routes
        = L.foldl (fun m pf => registerSegs m (patSegs pf.1) pf.2) r.routes by
    exact h emptyRouter
  induction L with
  | nil => intro r; rfl
  | cons pf rest ih => intro r; exact ih _

theorem aset_append_of_not_mem {β : Type u} (l : List (String × β)) (k : String)
    (v : β) (h : k ∉ l.map Prod.fst) : aset l k v = l ++ [(k, v)] := by
  induction l with
  | nil => simp [aset]
  | cons kv rest ih =>
    obtain ⟨k1, v1⟩ := kv
    simp only [List.map_cons, List.mem_cons] at h
    push_neg at h
    simp only [aset, if_neg (Ne.symm h.1)]
    rw [ih h.2]
    simp

/-- The keys of the canonical parameter object are exactly the declared
parameter names, extended with the wildcard key for a terminal
wildcard. -/
theorem paramsAccum_keys (p : List String) (pa : List (String × String))
    (hwf : "*" ∉ p.dropLast) (hnd : (declaredNames p).Nodup)
    (hstar : "*" ∉ declaredNames p)
    (hdisj : ∀ n ∈ declaredNames p, n ∉ pa.map Prod.fst)
    (hstar2 : "*" ∉ pa.map Prod.fst) :
    (paramsAccum pa p).map Prod.fst = pa.map Prod.fst ++ declaredKeys p := by
  induction p generalizing pa with
  | nil => simp [paramsAccum, declaredKeys, declaredNames]
  | cons s rest ih =>
    by_cases hs1 : s = "*"
    · subst hs1
      have hrest : rest = [] := by
        cases rest with
        | nil => rfl
        | cons x xs =>
          exfalso
          exact hwf (by
            rw [show ("*" :: x :: xs).dropLast = "*" :: (x :: xs).dropLast from rfl]
            exact List.mem_cons_self _ _)
      subst hrest
      simp only [paramsAccum, if_true]
      rw [aset_append_of_not_mem _ _ _ hstar2]
      simp [declaredKeys, declaredNames, startsWithColon]
    · by_cases hs2 : startsWithColon s = true
      · have hdecl : declaredNames (s :: rest) = tailStr s :: declaredNames rest := by
          simp [declaredNames, hs2]
        rw [hdecl] at hnd hstar hdisj
        simp only [List.nodup_cons] at hnd
        simp only [List.mem_cons] at hstar
        push_neg at hstar
        simp only [paramsAccum, hs1, hs2, if_false, if_true, Bool.false_eq_true]
        rw [aset_append_of_not_mem pa (tailStr s) s (hdisj _ (by simp))]
        rw [ih _ (wf_star_tail s rest hwf) hnd.2 hstar.2 ?_ ?_]
        · have hkeys : declaredKeys (s :: rest) = tailStr s :: declaredKeys rest := by
            simp only [declaredKeys, hdecl]
            cases rest with
            | nil =>
              have : s ≠ "*" := hs1
              simp [declaredNames, List.getLast?, this]
            | cons x xs =>
              simp [List.getLast?_cons_cons]
          rw [hkeys]
          simp
        · intro n hn
          simp only [List.map_append, List.mem_append]
          push_neg
          refine ⟨hdisj n (List.mem_cons_of_mem _ hn), ?_⟩
          have : n ≠ tailStr s := by
            intro heq
            subst heq
            exact hnd.1 hn
          simp [this]
        · simp only [List.map_append, List.mem_append]
          push_neg
          exact ⟨hstar2, by simp [hstar.1]⟩
      · have hdecl : declaredNames (s :: rest) = declaredNames rest := by
          simp [declaredNames, hs2]
        rw [hdecl] at hnd hstar hdisj
        simp only [paramsAccum, hs1, hs2, if_false, Bool.false_eq_true]
        rw [ih _ (wf_star_tail s rest hwf) hnd hstar hdisj hstar2]
        have hkeys : declaredKeys (s :: rest) = declaredKeys rest := by
          simp only [declaredKeys, hdecl]
          cases rest with
          | nil =>
            have : s ≠ "*" := hs1
            simp [declaredNames, List.getLast?, this]
          | cons x xs =>
            simp [List.getLast?_cons_cons]
        rw [hkeys]

/-- String-level form: two registrations whose patterns normalize alike
leave exactly the state of the second registration. -/
theorem registerHandlerFactory_twice {α : Type u} {σ : Type v} (r : Router α σ)
    (p1 p2 : String) (f1 f2 : α)
    (h : Router.pathNormalize p1 = Router.pathNormalize p2) :
    (r.registerHandlerFactory p1 f1).registerHandlerFactory p2 f2
      = r.registerHandlerFactory p2 f2 := by
  obtain ⟨routes, specials⟩ := r
  simp only [Router.registerHandlerFactory, h, registerSegs_twice]

/-- C9: registerHandlerFactory never rejects a duplicate registration;
when two patterns normalize to the same segment list, the second
registration silently rebinds the shared trie node (last write wins,
mirroring registerSpecialRoute), so the router behaves exactly as if only
the second factory had been registered, and in particular every
subsequent findHandlerFactory answers with the second registration's
routing table. -/
theorem claim_c9_last_write_wins :
    (∀ (α σ : Type) (r : Router α σ) (p1 p2 : String) (f1 f2 : α),
        Router.pathNormalize p1 = Router.pathNormalize p2 →
        (r.registerHandlerFactory p1 f1).registerHandlerFactory p2 f2
          = r.registerHandlerFactory p2 f2)
    ∧ (∀ (α σ : Type) (r : Router α σ) (p1 p2 : String) (f1 f2 : α) (q : String),
        Router.pathNormalize p1 = Router.pathNormalize p2 →
        ((r.registerHandlerFactory p1 f1).registerHandlerFactory p2 f2).findHandlerFactory q
          = (r.registerHandlerFactory p2 f2).findHandlerFactory q) := by
  constructor
  · intro α σ r p1 p2 f1 f2 h
    exact registerHandlerFactory_twice r p1 p2 f1 f2 h
  · intro α σ r p1 p2 f1 f2 q h
    rw [registerHandlerFactory_twice r p1 p2 f1 f2 h]

/-! ### Navigator helper lemmas -/

/-- Full-transition success pins the successor state: the Navigation
State becomes the (possibly null) target info, the incoming handler
becomes current, both igniter lists are cleared, and the incoming
render was invoked. -/
theorem transitionerFull_ok_state (env : NavEnv) (h : Handler) (info : Option Info)
    (s s' : NavSt) (t : List Ev)
    (heq : transitionerFull env h info s = (s', t, .ok ())) :
    s'.prevInfo = info ∧ s'.prevHandler = some h ∧ Ev.renderingFull h.id ∈ t := by
  simp only [transitionerFull, igniteIgnitersOnPathUnmatchAll,
    igniteIgnitersOnDomClearAll] at heq
  split at heq
  · simp at heq
  · split at heq
    · simp at heq
    · split at heq
      · simp at heq
      · split at heq
        · simp at heq
        · simp only [Prod.mk.injEq] at heq
          obtain ⟨h1, h2, -⟩ := heq
          subst h1
          refine ⟨rfl, rfl, ?_⟩
          rw [← h2]
          simp

/-- A successful transition to a special page nulls the Navigation State
and fully renders the special handler. -/
theorem transitionToSpecial_ok (env : NavEnv) (name : String) (s s' : NavSt)
    (t : List Ev) (heq : transitionToSpecial env name s = (s', t, .ok ())) :
    s'.prevInfo = none ∧ ∃ hid, Ev.renderingFull hid ∈ t := by
  simp only [transitionToSpecial] at heq
  split at heq
  case h_1 shf hfind =>
    split at heq
    · simp at heq
    case h_2 sh hcr =>
      obtain ⟨h1, h2, h3⟩ := transitionerFull_ok_state env sh none s s' t heq
      exact ⟨h1, sh.id, h3⟩
  · simp at heq

/-- Shape of a full transition's trace: the full marker, then every
remaining scope watcher in registration order, then every deferred
cleanup in registration order, then cleanupFull of the outgoing handler,
and only then the title, the rendering-surface step, and the incoming
render; when the full transition succeeds the incoming render was
invoked. -/
theorem transitionerFull_trace_shape (env : NavEnv) (h : Handler) (info : Option Info)
    (s : NavSt) :
    ∃ tRest,
      (transitionerFull env h info s).2.1
        = Ev.fullStart ::
            (s.ignitersOnPathUnmatch.map (fun ig => Ev.unmatchFire ig.id)
              ++ s.ignitersOnDomClear.map (fun ig => Ev.domClearFire ig.id)
              ++ (match s.prevHandler with
                  | some ph => [Ev.cleanupFull ph.id]
                  | none => [])
              ++ tRest)
      ∧ (∀ e ∈ tRest, (∃ x, e = Ev.setTitle x) ∨ (∃ q, e = Ev.loadHtml q)
            ∨ e = Ev.clearSurface ∨ e = Ev.renderingFull h.id)
      ∧ ((transitionerFull env h info s).2.2 = .ok () → Ev.renderingFull h.id ∈ tRest) := by
  simp only [transitionerFull, igniteIgnitersOnPathUnmatchAll, igniteIgnitersOnDomClearAll]
  rcases hT : Handler.getTitle h with er | tt
  · exact ⟨[], by simp, by simp, by simp⟩
  · rcases hA : Handler.getHtmlAssetPath h with er | ap
    · refine ⟨[Ev.setTitle (titleString env.baseTitle tt)], by simp, by simp, by simp⟩
    · rcases ap with p | _
      case some p =>
        rcases hL : env.loadHtml p with er | u
        · refine ⟨[Ev.setTitle (titleString env.baseTitle tt), Ev.loadHtml p],
            by simp [hL], ?_, by simp [hL]⟩
          intro e he
          simp at he
          rcases he with he | he
          · exact Or.inl ⟨_, he⟩
          · exact Or.inr (Or.inl ⟨_, he⟩)
        · cases u
          refine ⟨[Ev.setTitle (titleString env.baseTitle tt), Ev.loadHtml p,
              Ev.renderingFull h.id], ?_, ?_, by simp⟩
          · rcases hR : Handler.renderingFull h with er | u2
            · simp [hL]
            · cases u2; simp [hL]
          · intro e he
            simp at he
            rcases he with he | he | he
            · exact Or.inl ⟨_, he⟩
            · exact Or.inr (Or.inl ⟨_, he⟩)
            · exact Or.inr (Or.inr (Or.inr he))
      case none =>
        refine ⟨[Ev.setTitle (titleString env.baseTitle tt), Ev.clearSurface,
            Ev.renderingFull h.id], ?_, ?_, by simp⟩
        · rcases hR : Handler.renderingFull h with er | u2
          · simp
          · cases u2; simp
        · intro e he
          simp at he
          rcases he with he | he | he
          · exact Or.inl ⟨_, he⟩
          · exact Or.inr (Or.inr (Or.inl he))
          · exact Or.inr (Or.inr (Or.inr he))

/-- The full transition's trace never contains a partial render, and
always opens with the full marker. -/
theorem transitionerFull_no_partial_events (env : NavEnv) (h : Handler)
    (info : Option Info) (s : NavSt) :
    (∀ hid, Ev.renderingPartial hid ∉ (transitionerFull env h info s).2.1)
      ∧ Ev.fullStart ∈ (transitionerFull env h info s).2.1 := by
  obtain ⟨tRest, hTr, hKinds, -⟩ := transitionerFull_trace_shape env h info s
  rw [hTr]
  constructor
  · intro hid hmem
    rcases List.mem_cons.mp hmem with h1 | h2
    · exact absurd h1 (by simp)
    rcases List.mem_append.mp h2 with h3 | h8
    · rcases List.mem_append.mp h3 with h4 | h7
      · rcases List.mem_append.mp h4 with h5 | h6
        · obtain ⟨ig, -, hig⟩ := List.mem_map.mp h5
          exact absurd hig (by simp)
        · obtain ⟨ig, -, hig⟩ := List.mem_map.mp h6
          exact absurd hig (by simp)
      · rcases hph : s.prevHandler with _ | ph
        · rw [hph] at h7; simp at h7
        · rw [hph] at h7; simp at h7
    · rcases hKinds _ h8 with ⟨x, hx⟩ | ⟨q, hq⟩ | hc | hr
      · exact absurd hx (by simp)
      · exact absurd hq (by simp)
      · exact absurd hc (by simp)
      · exact absurd hr (by simp)
  · simp

/-- Exact run of a navigation that fires the in-page tier: the stale
watchers are flushed against the new path, renderingInpage runs on the
current handler, and only the Navigation State is replaced. -/
theorem transitioner_inpage_run (env : NavEnv) (p : String) (s : NavSt)
    (found : FindRet HandlerFactory) (prev : Info) (ph : Handler)
    (hfind : env.router.findHandlerFactory (Router.pathNormalize p) = some found)
    (hprev : s.prevInfo = some prev)
    (hfx : prev.fixedPath = found.fixedPath)
    (hph : s.prevHandler = some ph)
    (hcan : Handler.canInpageTransferTo ph found.params = .ok true)
    (hrender : Handler.renderingInpage ph found.params = .ok ()) :
    transitioner env p s
      = ({ s with
            prevInfo := some ⟨Router.pathNormalize p, found.fixedPath, found.params⟩,
            ignitersOnPathUnmatch :=
              s.ignitersOnPathUnmatch.filter
                (fun ig => igniterKept (splitSegs (Router.pathNormalize p)) ig) },
         (s.ignitersOnPathUnmatch.filter
             (fun ig => ¬ igniterKept (splitSegs (Router.pathNormalize p)) ig)).map
             (fun ig => Ev.unmatchFire ig.id)
           ++ [Ev.renderingInpage ph.id],
         .ok ()) := by
  obtain ⟨pi, phh, igU, igD, dt⟩ := s
  simp only [NavSt.prevInfo] at hprev
  simp only [NavSt.prevHandler] at hph
  subst hprev; subst hph
  simp only [transitioner, hfind, igniteIgniterOnPathUnmatch, transitionerInpage,
    hfx, hcan, hrender]
  simp [hfx]

/-- A full transition whose incoming render throws (after title and
surface succeeded) fails with that error, leaves the Navigation State and
current handler untouched, and clears both igniter lists. -/
theorem transitionerFull_render_error (env : NavEnv) (h : Handler) (info : Option Info)
    (s : NavSt) (e : Err) (tt ap : Option String)
    (hT : Handler.getTitle h = .ok tt)
    (hA : Handler.getHtmlAssetPath h = .ok ap)
    (hap : match ap with | some p => env.loadHtml p = .ok () | none => True)
    (hR : Handler.renderingFull h = .error e) :
    (transitionerFull env h info s).2.2 = .error e
      ∧ Ev.renderingFull h.id ∈ (transitionerFull env h info s).2.1
      ∧ ((transitionerFull env h info s).1).prevHandler = s.prevHandler
      ∧ ((transitionerFull env h info s).1).prevInfo = s.prevInfo
      ∧ ((transitionerFull env h info s).1).ignitersOnPathUnmatch = []
      ∧ ((transitionerFull env h info s).1).ignitersOnDomClear = [] := by
  rcases ap with _ | p
  · simp [transitionerFull, igniteIgnitersOnPathUnmatchAll,
      igniteIgnitersOnDomClearAll, hT, hA, hR]
  · simp only at hap
    simp [transitionerFull, igniteIgnitersOnPathUnmatchAll,
      igniteIgnitersOnDomClearAll, hT, hA, hR, hap]

/-- A full transition with no asset path and a successful incoming render
succeeds, renders the incoming handler, and installs it as current. -/
theorem transitionerFull_render_ok (env : NavEnv) (h : Handler) (info : Option Info)
    (s : NavSt) (tt : Option String)
    (hT : Handler.getTitle h = .ok tt)
    (hA : Handler.getHtmlAssetPath h = .ok none)
    (hR : Handler.renderingFull h = .ok ()) :
    (transitionerFull env h info s).2.2 = .ok ()
      ∧ Ev.renderingFull h.id ∈ (transitionerFull env h info s).2.1
      ∧ ((transitionerFull env h info s).1).prevInfo = info
      ∧ ((transitionerFull env h info s).1).prevHandler = some h := by
  simp [transitionerFull, igniteIgnitersOnPathUnmatchAll,
    igniteIgnitersOnDomClearAll, hT, hA, hR]

/-- Exact run of a navigation whose applicable in-page attempt throws:
the partial tier is skipped, the handler is constructed and the full
tier runs on the flushed state. -/
theorem transitioner_inpage_throw_run (env : NavEnv) (p : String) (s : NavSt)
    (found : FindRet HandlerFactory) (prev : Info) (A B : Handler) (e : Err)
    (hfind : env.router.findHandlerFactory (Router.pathNormalize p) = some found)
    (hprev : s.prevInfo = some prev)
    (hfx : prev.fixedPath = found.fixedPath)
    (hph : s.prevHandler = some A)
    (hcan : Handler.canInpageTransferTo A found.params = .ok true)
    (hrender : Handler.renderingInpage A found.params = .error e)
    (hcreate : HandlerFactory.create found.handlerFactory
        (mkCtx ⟨Router.pathNormalize p, found.fixedPath, found.params⟩ s) = .ok B) :
    transitioner env p s
      = ((transitionerFull env B
            (some ⟨Router.pathNormalize p, found.fixedPath, found.params⟩)
            (flushedSt (Router.pathNormalize p) s)).1,
         firedEvs (Router.pathNormalize p) s ++ [Ev.renderingInpage A.id]
           ++ (transitionerFull env B
                (some ⟨Router.pathNormalize p, found.fixedPath, found.params⟩)
                (flushedSt (Router.pathNormalize p) s)).2.1,
         (transitionerFull env B
            (some ⟨Router.pathNormalize p, found.fixedPath, found.params⟩)
            (flushedSt (Router.pathNormalize p) s)).2.2) := by
  obtain ⟨pi, phh, igU, igD, dt⟩ := s
  simp only [NavSt.prevInfo] at hprev
  simp only [NavSt.prevHandler] at hph
  subst hprev; subst hph
  simp only [mkCtx, Option.map_some', hfx] at hcreate
  simp only [transitioner, hfind, igniteIgniterOnPathUnmatch, transitionerInpage,
    flushedSt, firedEvs, hfx, hcan, hrender, mkCtx, Option.map_some']
  simp [hfx]
  rw [hcreate]

/-- Exact run of a first navigation (no previous Navigation State): both
upper tiers are inapplicable and the full tier runs on the flushed
state. -/
theorem transitioner_cold_full_run (env : NavEnv) (p : String) (s : NavSt)
    (found : FindRet HandlerFactory) (B : Handler)
    (hfind : env.router.findHandlerFactory (Router.pathNormalize p) = some found)
    (hprev : s.prevInfo = none)
    (hcreate : HandlerFactory.create found.handlerFactory
        (mkCtx ⟨Router.pathNormalize p, found.fixedPath, found.params⟩ s) = .ok B) :
    transitioner env p s
      = ((transitionerFull env B
            (some ⟨Router.pathNormalize p, found.fixedPath, found.params⟩)
            (flushedSt (Router.pathNormalize p) s)).1,
         firedEvs (Router.pathNormalize p) s
           ++ (transitionerFull env B
                (some ⟨Router.pathNormalize p, found.fixedPath, found.params⟩)
                (flushedSt (Router.pathNormalize p) s)).2.1,
         (transitionerFull env B
            (some ⟨Router.pathNormalize p, found.fixedPath, found.params⟩)
            (flushedSt (Router.pathNormalize p) s)).2.2) := by
  obtain ⟨pi, phh, igU, igD, dt⟩ := s
  simp only [NavSt.prevInfo] at hprev
  subst hprev
  simp only [mkCtx, Option.map_none'] at hcreate
  simp only [transitioner, hfind, igniteIgniterOnPathUnmatch, transitionerInpage,
    transitionerPartial, flushedSt, firedEvs, mkCtx, Option.map_none']
  simp
  rw [hcreate]

/-- Exact run of a navigation from an existing page to a different fixed
path whose outgoing controller declines the partial handoff: the full
tier runs on the flushed state. -/
theorem transitioner_warm_decline_run (env : NavEnv) (p : String) (s : NavSt)
    (found : FindRet HandlerFactory) (prev : Info) (A B : Handler)
    (hfind : env.router.findHandlerFactory (Router.pathNormalize p) = some found)
    (hprev : s.prevInfo = some prev)
    (hfx : prev.fixedPath ≠ found.fixedPath)
    (hph : s.prevHandler = some A)
    (hcanp : Handler.canPartialTransferToNextPath A
        ⟨Router.pathNormalize p, found.fixedPath, found.params⟩ = .ok false)
    (hcreate : HandlerFactory.create found.handlerFactory
        (mkCtx ⟨Router.pathNormalize p, found.fixedPath, found.params⟩ s) = .ok B) :
    transitioner env p s
      = ((transitionerFull env B
            (some ⟨Router.pathNormalize p, found.fixedPath, found.params⟩)
            (flushedSt (Router.pathNormalize p) s)).1,
         firedEvs (Router.pathNormalize p) s
           ++ (transitionerFull env B
                (some ⟨Router.pathNormalize p, found.fixedPath, found.params⟩)
                (flushedSt (Router.pathNormalize p) s)).2.1,
         (transitionerFull env B
            (some ⟨Router.pathNormalize p, found.fixedPath, found.params⟩)
            (flushedSt (Router.pathNormalize p) s)).2.2) := by
  obtain ⟨pi, phh, igU, igD, dt⟩ := s
  simp only [NavSt.prevInfo] at hprev
  simp only [NavSt.prevHandler] at hph
  subst hprev; subst hph
  simp only [mkCtx, Option.map_some'] at hcreate
  simp only [transitioner, hfind, igniteIgniterOnPathUnmatch, transitionerInpage,
    transitionerPartial, flushedSt, firedEvs, hcanp, mkCtx, Option.map_some']
  simp [hfx]
  rw [hcreate]
  simp [transitionerPartial, hcanp]

/-- A partial attempt that passes both capability checks and the prepare
step but whose incoming partial render throws fails with that error and
records the partial-render event. -/
theorem transitionerPartial_throw_eval (nh : Handler) (ni : Info) (s : NavSt)
    (prev : Info) (A : Handler) (ret : PrepRet) (e : Err)
    (hprev : s.prevInfo = some prev)
    (hph : s.prevHandler = some A)
    (hcanp : Handler.canPartialTransferToNextPath A
        ⟨ni.rawPath, ni.fixedPath, ni.params⟩ = .ok true)
    (hcanr : Handler.canPartialReceiveFromPrevPath nh = .ok true)
    (hprep : Handler.preparePartialTransfer A
        ⟨ni.rawPath, ni.fixedPath, ni.params⟩ = .ok ret)
    (hrp : Handler.renderingPartial nh ret.state = .error e) :
    (transitionerPartial nh ni s).2.2 = .error e
      ∧ Ev.renderingPartial nh.id ∈ (transitionerPartial nh ni s).2.1 := by
  obtain ⟨pi, ph0, igU, igD, dt⟩ := s
  simp only [NavSt.prevInfo] at hprev
  simp only [NavSt.prevHandler] at hph
  subst hprev; subst hph
  simp [transitionerPartial, hcanp, hcanr, hprep, hrp]

/-- Exact run of a navigation whose partial attempt throws in the
incoming partial render: the state changes of the prepare step persist
and the full tier runs on them; the partial error is not the result. -/
theorem transitioner_partial_throw_run (env : NavEnv) (p : String) (s : NavSt)
    (found : FindRet HandlerFactory) (prev : Info) (A B : Handler) (ret : PrepRet)
    (e : Err)
    (hfind : env.router.findHandlerFactory (Router.pathNormalize p) = some found)
    (hprev : s.prevInfo = some prev)
    (hfx : prev.fixedPath ≠ found.fixedPath)
    (hph : s.prevHandler = some A)
    (hcreate : HandlerFactory.create found.handlerFactory
        (mkCtx ⟨Router.pathNormalize p, found.fixedPath, found.params⟩ s) = .ok B)
    (hcanp : Handler.canPartialTransferToNextPath A
        ⟨Router.pathNormalize p, found.fixedPath, found.params⟩ = .ok true)
    (hcanr : Handler.canPartialReceiveFromPrevPath B = .ok true)
    (hprep : Handler.preparePartialTransfer A
        ⟨Router.pathNormalize p, found.fixedPath, found.params⟩ = .ok ret)
    (hrp : Handler.renderingPartial B ret.state = .error e) :
    transitioner env p s
      = ((transitionerFull env B
            (some ⟨Router.pathNormalize p, found.fixedPath, found.params⟩)
            ((transitionerPartial B
                ⟨Router.pathNormalize p, found.fixedPath, found.params⟩
                (flushedSt (Router.pathNormalize p) s)).1)).1,
         firedEvs (Router.pathNormalize p) s
           ++ (transitionerPartial B
                ⟨Router.pathNormalize p, found.fixedPath, found.params⟩
                (flushedSt (Router.pathNormalize p) s)).2.1
           ++ (transitionerFull env B
                (some ⟨Router.pathNormalize p, found.fixedPath, found.params⟩)
                ((transitionerPartial B
                    ⟨Router.pathNormalize p, found.fixedPath, found.params⟩
                    (flushedSt (Router.pathNormalize p) s)).1)).2.1,
         (transitionerFull env B
            (some ⟨Router.pathNormalize p, found.fixedPath, found.params⟩)
            ((transitionerPartial B
                ⟨Router.pathNormalize p, found.fixedPath, found.params⟩
                (flushedSt (Router.pathNormalize p) s)).1)).2.2) := by
  obtain ⟨pi, phh, igU, igD, dt⟩ := s
  simp only [NavSt.prevInfo] at hprev
  simp only [NavSt.prevHandler] at hph
  subst hprev; subst hph
  simp only [mkCtx, Option.map_some'] at hcreate
  simp only [transitioner, hfind, igniteIgniterOnPathUnmatch, transitionerInpage,
    transitionerPartial, flushedSt, firedEvs, hcanp, hcanr, hprep, hrp, mkCtx,
    Option.map_some']
  simp [hfx]
  rw [hcreate]
  simp [transitionerPartial, hcanp, hcanr, hprep, hrp]

theorem countEv_append (e : Ev) (t1 t2 : List Ev) :
    countEv e (t1 ++ t2) = countEv e t1 + countEv e t2 := by
  simp [countEv]

theorem countEv_cons (e a : Ev) (t : List Ev) :
    countEv e (a :: t) = countEv e t + (if a = e then 1 else 0) := by
  simp [countEv, List.countP_cons]

theorem countEv_eq_zero_iff (e : Ev) (t : List Ev) :
    countEv e t = 0 ↔ e ∉ t := by
  rw [countEv, List.countP_eq_zero]
  constructor
  · intro h hmem
    have h2 := h e hmem
    simp at h2
  · intro h a ha
    simp only [decide_eq_true_eq]
    intro heq
    subst heq
    exact h ha

/-- A map of watcher-fire events contains no cleanupFull event. -/
theorem countEv_cleanup_map_unmatch (hid : Nat) (l : List Igniter) :
    countEv (Ev.cleanupFull hid) (l.map (fun ig => Ev.unmatchFire ig.id)) = 0 := by
  rw [countEv_eq_zero_iff]
  intro hmem
  obtain ⟨ig, -, hig⟩ := List.mem_map.mp hmem
  exact absurd hig (by simp)

/-- A map of dom-clear-fire events contains no cleanupFull event. -/
theorem countEv_cleanup_map_domclear (hid : Nat) (l : List DomIgniter) :
    countEv (Ev.cleanupFull hid) (l.map (fun ig => Ev.domClearFire ig.id)) = 0 := by
  rw [countEv_eq_zero_iff]
  intro hmem
  obtain ⟨ig, -, hig⟩ := List.mem_map.mp hmem
  exact absurd hig (by simp)

/-- The only cleanupFull events a full transition emits are the single
invocation on the outgoing handler. -/
theorem transitionerFull_count_cleanup (env : NavEnv) (h : Handler)
    (info : Option Info) (s : NavSt) (hid : Nat) :
    countEv (Ev.cleanupFull hid) (transitionerFull env h info s).2.1
      = countEv (Ev.cleanupFull hid)
          (match s.prevHandler with
           | some ph => [Ev.cleanupFull ph.id]
           | none => []) := by
  obtain ⟨tRest, hTr, hKinds, -⟩ := transitionerFull_trace_shape env h info s
  have hRest : countEv (Ev.cleanupFull hid) tRest = 0 := by
    rw [countEv_eq_zero_iff]
    intro hmem
    rcases hKinds _ hmem with ⟨x, hx⟩ | ⟨q, hq⟩ | hc | hr
    · exact absurd hx (by simp)
    · exact absurd hq (by simp)
    · exact absurd hc (by simp)
    · exact absurd hr (by simp)
  rw [hTr, countEv_cons, countEv_append, countEv_append, countEv_append,
    countEv_cleanup_map_unmatch, countEv_cleanup_map_domclear, hRest]
  simp

/-! ### Scope-watcher accounting (claim C4) -/

theorem countEv_map_ne {γ : Type u} (e : Ev) (f : γ → Ev) (l : List γ)
    (h : ∀ x, f x ≠ e) : countEv e (l.map f) = 0 := by
  rw [countEv_eq_zero_iff]
  intro hm
  obtain ⟨x, -, hx⟩ := List.mem_map.mp hm
  exact h x hx

theorem firesW_map_unmatch (w : Nat) (l : List Igniter) :
    firesW w (l.map (fun ig => Ev.unmatchFire ig.id)) = cntW w l := by
  induction l with
  | nil => rfl
  | cons ig rest ih =>
    simp only [List.map_cons, firesW, countEv, cntW, List.countP_cons] at ih ⊢
    simp only [show (decide (Ev.unmatchFire ig.id = Ev.unmatchFire w))
        = decide (ig.id = w) by simp]
    omega

theorem mergesW_map_merged (w : Nat) (l : List Igniter) :
    mergesW w (l.map (fun ig => Ev.igniterMerged ig.id)) = cntW w l := by
  induction l with
  | nil => rfl
  | cons ig rest ih =>
    simp only [List.map_cons, mergesW, countEv, cntW, List.countP_cons] at ih ⊢
    simp only [show (decide (Ev.igniterMerged ig.id = Ev.igniterMerged w))
        = decide (ig.id = w) by simp]
    omega

theorem cntW_append (w : Nat) (l1 l2 : List Igniter) :
    cntW w (l1 ++ l2) = cntW w l1 + cntW w l2 := by
  simp [cntW]

theorem cntW_filter_partition (w : Nat) (keep : Igniter → Bool) (l : List Igniter) :
    cntW w (l.filter keep) + cntW w (l.filter (fun ig => ¬ keep ig)) = cntW w l := by
  induction l with
  | nil => rfl
  | cons ig rest ih =>
    simp only [List.filter_cons]
    by_cases hk : keep ig = true
    · rw [if_pos hk, if_neg (by simp [hk])]
      simp only [cntW, List.countP_cons] at ih ⊢
      omega
    · rw [if_neg hk, if_pos (by simp [hk])]
      simp only [cntW, List.countP_cons] at ih ⊢
      omega

/-- The full transition clears both igniter lists whatever its outcome. -/
theorem transitionerFull_ign_empty (env : NavEnv) (h : Handler) (info : Option Info)
    (s : NavSt) :
    ((transitionerFull env h info s).1).ignitersOnPathUnmatch = []
      ∧ ((transitionerFull env h info s).1).ignitersOnDomClear = [] := by
  simp only [transitionerFull, igniteIgnitersOnPathUnmatchAll,
    igniteIgnitersOnDomClearAll]
  rcases hT : Handler.getTitle h with er | tt
  · simp
  · rcases hA : Handler.getHtmlAssetPath h with er | ap
    · simp
    · rcases ap with _ | q
      · rcases hR : Handler.renderingFull h with er | u <;> simp
      · rcases hL : env.loadHtml q with er | u
        · simp [hL]
        · rcases hR : Handler.renderingFull h with er | u2 <;> simp [hL]

/-- Watcher accounting of a full transition: every remaining watcher
fires once, none is merged, and the full marker is in the trace. -/
theorem transitionerFull_watchers (env : NavEnv) (h : Handler) (info : Option Info)
    (s : NavSt) (w : Nat) :
    firesW w (transitionerFull env h info s).2.1 = cntW w s.ignitersOnPathUnmatch
      ∧ mergesW w (transitionerFull env h info s).2.1 = 0
      ∧ Ev.fullStart ∈ (transitionerFull env h info s).2.1 := by
  obtain ⟨tRest, hTr, hKinds, -⟩ := transitionerFull_trace_shape env h info s
  have hfiresRest : firesW w tRest = 0 := by
    rw [firesW, countEv_eq_zero_iff]
    intro hmem
    rcases hKinds _ hmem with ⟨x, hx⟩ | ⟨q, hq⟩ | hc | hr
    · exact absurd hx (by simp)
    · exact absurd hq (by simp)
    · exact absurd hc (by simp)
    · exact absurd hr (by simp)
  have hmergesRest : mergesW w tRest = 0 := by
    rw [mergesW, countEv_eq_zero_iff]
    intro hmem
    rcases hKinds _ hmem with ⟨x, hx⟩ | ⟨q, hq⟩ | hc | hr
    · exact absurd hx (by simp)
    · exact absurd hq (by simp)
    · exact absurd hc (by simp)
    · exact absurd hr (by simp)
  rw [hTr]
  refine ⟨?_, ?_, by simp⟩
  · simp only [firesW, countEv_cons, countEv_append]
    rw [← firesW, ← firesW, ← firesW, ← firesW, firesW_map_unmatch, hfiresRest]
    have h2 : firesW w (s.ignitersOnDomClear.map (fun ig => Ev.domClearFire ig.id))
        = 0 := countEv_map_ne _ _ _ (by intro x; simp)
    have h3 : firesW w (match s.prevHandler with
        | some ph => [Ev.cleanupFull ph.id]
        | none => []) = 0 := by
      rcases s.prevHandler with _ | ph
      · rfl
      · simp [firesW, countEv]
    rw [h2, h3]
    simp
  · simp only [mergesW, countEv_cons, countEv_append]
    rw [← mergesW, ← mergesW, ← mergesW, ← mergesW, hmergesRest]
    have h1 : mergesW w (s.ignitersOnPathUnmatch.map (fun ig => Ev.unmatchFire ig.id))
        = 0 := countEv_map_ne _ _ _ (by intro x; simp)
    have h2 : mergesW w (s.ignitersOnDomClear.map (fun ig => Ev.domClearFire ig.id))
        = 0 := countEv_map_ne _ _ _ (by intro x; simp)
    have h3 : mergesW w (match s.prevHandler with
        | some ph => [Ev.cleanupFull ph.id]
        | none => []) = 0 := by
      rcases s.prevHandler with _ | ph
      · rfl
      · simp [mergesW, countEv]
    rw [h1, h2, h3]
    simp

theorem firesW_append (w : Nat) (t1 t2 : List Ev) :
    firesW w (t1 ++ t2) = firesW w t1 + firesW w t2 :=
  countEv_append _ t1 t2

theorem mergesW_append (w : Nat) (t1 t2 : List Ev) :
    mergesW w (t1 ++ t2) = mergesW w t1 + mergesW w t2 :=
  countEv_append _ t1 t2

theorem firesW_cons (w : Nat) (e : Ev) (t : List Ev) :
    firesW w (e :: t) = firesW w t + (if e = Ev.unmatchFire w then 1 else 0) :=
  countEv_cons _ e t

theorem mergesW_cons (w : Nat) (e : Ev) (t : List Ev) :
    mergesW w (e :: t) = mergesW w t + (if e = Ev.igniterMerged w then 1 else 0) :=
  countEv_cons _ e t

theorem firesW_nil (w : Nat) : firesW w [] = 0 := rfl

theorem mergesW_nil (w : Nat) : mergesW w [] = 0 := rfl

theorem firesW_map_merged (w : Nat) (l : List Igniter) :
    firesW w (l.map (fun ig => Ev.igniterMerged ig.id)) = 0 :=
  countEv_map_ne _ _ _ (fun x => by simp)

theorem mergesW_map_unmatch (w : Nat) (l : List Igniter) :
    mergesW w (l.map (fun ig => Ev.unmatchFire ig.id)) = 0 :=
  countEv_map_ne _ _ _ (fun x => by simp)

theorem firesW_map_domClear (w : Nat) (l : List DomIgniter) :
    firesW w (l.map (fun d => Ev.domClearFire d.id)) = 0 :=
  countEv_map_ne _ _ _ (fun x => by simp)

theorem mergesW_map_domClear (w : Nat) (l : List DomIgniter) :
    mergesW w (l.map (fun d => Ev.domClearFire d.id)) = 0 :=
  countEv_map_ne _ _ _ (fun x => by simp)

theorem firesW_map_domMerged (w : Nat) (l : List DomIgniter) :
    firesW w (l.map (fun d => Ev.domClearMerged d.id)) = 0 :=
  countEv_map_ne _ _ _ (fun x => by simp)

theorem mergesW_map_domMerged (w : Nat) (l : List DomIgniter) :
    mergesW w (l.map (fun d => Ev.domClearMerged d.id)) = 0 :=
  countEv_map_ne _ _ _ (fun x => by simp)

theorem cntW_pos_of_mem (w : Nat) (l : List Igniter) (ig : Igniter)
    (hm : ig ∈ l) (hid : ig.id = w) : 1 ≤ cntW w l := by
  rw [cntW]
  exact List.countP_pos_iff.mpr ⟨ig, hm, by simp [hid]⟩

theorem cntW_kept_partition (w : Nat) (sp : List String) (l : List Igniter) :
    cntW w (l.filter (fun ig => igniterKept sp ig))
      + cntW w (l.filter (fun ig => ¬ igniterKept sp ig)) = cntW w l := by
  induction l with
  | nil => rfl
  | cons ig rest ih =>
    simp only [List.filter_cons]
    by_cases hk : igniterKept sp ig = true
    · rw [if_pos (by simp [hk]), if_neg (by simp [hk])]
      simp only [cntW, List.countP_cons] at ih ⊢
      omega
    · rw [if_neg (by simp [hk]), if_pos (by simp [hk])]
      simp only [cntW, List.countP_cons] at ih ⊢
      omega

/-- The stale-watcher flush is exactly the flushedSt/firedEvs pair. -/
theorem igniteFlush_state (p : String) (s : NavSt) :
    (igniteIgniterOnPathUnmatch p s).1 = flushedSt p s := rfl

theorem igniteFlush_trace (p : String) (s : NavSt) :
    (igniteIgniterOnPathUnmatch p s).2.1 = firedEvs p s := rfl

/-- Conservation composes along an appended trace. -/
theorem conserves_comp (w : Nat) (i m o : List Igniter) (t1 t2 : List Ev)
    (h1 : Conserves w i m t1) (h2 : Conserves w m o t2) :
    Conserves w i o (t1 ++ t2) := by
  simp only [Conserves, firesW_append, mergesW_append] at h1 h2 ⊢
  omega

/-- The stale-watcher flush conserves every watcher id: each dropped
watcher fires, each kept watcher stays, none is merged. -/
theorem flush_conserves (w : Nat) (p : String) (s : NavSt) :
    Conserves w s.ignitersOnPathUnmatch
      ((igniteIgniterOnPathUnmatch p s).1).ignitersOnPathUnmatch
      (igniteIgniterOnPathUnmatch p s).2.1 := by
  obtain ⟨pi, ph, igU, igD, dt⟩ := s
  simp only [igniteIgniterOnPathUnmatch, Conserves]
  rw [firesW_map_unmatch, mergesW_map_unmatch]
  have hpart := cntW_kept_partition w (splitSegs p) igU
  omega

/-- The in-page tier never touches the watcher list and its trace has no
watcher events. -/
theorem transitionerInpage_conserves (nextInfo : Info) (s : NavSt) (w : Nat) :
    Conserves w s.ignitersOnPathUnmatch
      ((transitionerInpage nextInfo s).1).ignitersOnPathUnmatch
      (transitionerInpage nextInfo s).2.1 := by
  obtain ⟨pi, ph0, igU, igD, dt⟩ := s
  rcases pi with _ | prev
  · simp [transitionerInpage, Conserves, firesW, mergesW, countEv]
  · simp only [transitionerInpage]
    split
    · simp [Conserves, firesW, mergesW, countEv]
    · rcases ph0 with _ | ph
      · simp [Conserves, firesW, mergesW, countEv]
      · rcases hc : Handler.canInpageTransferTo ph nextInfo.params with er | b
        · simp [hc, Conserves, firesW, mergesW, countEv]
        · cases b
          · simp [hc, Conserves, firesW, mergesW, countEv]
          · simp only [hc]
            rcases hr : Handler.renderingInpage ph nextInfo.params with er | u
            · simp [hr, Conserves, firesW, mergesW, countEv]
            · simp [hr, Conserves, firesW, mergesW, countEv]

/-- The partial tier conserves every watcher id: donated watchers are
merged with a matching trace event, nothing fires. -/
theorem transitionerPartial_conserves (nh : Handler) (nextInfo : Info) (s : NavSt)
    (w : Nat) :
    Conserves w s.ignitersOnPathUnmatch
      ((transitionerPartial nh nextInfo s).1).ignitersOnPathUnmatch
      (transitionerPartial nh nextInfo s).2.1 := by
  obtain ⟨pi, ph0, igU, igD, dt⟩ := s
  rcases pi with _ | prev
  · simp [transitionerPartial, Conserves, firesW, mergesW, countEv]
  · rcases ph0 with _ | ph
    · simp [transitionerPartial, Conserves, firesW, mergesW, countEv]
    · simp only [transitionerPartial]
      rcases hct : Handler.canPartialTransferToNextPath ph
          ⟨nextInfo.rawPath, nextInfo.fixedPath, nextInfo.params⟩ with er | b
      · simp [hct, Conserves, firesW, mergesW, countEv]
      · cases b
        · simp [hct, Conserves, firesW, mergesW, countEv]
        · simp only [hct]
          rcases hcr : Handler.canPartialReceiveFromPrevPath nh with er | b2
          · simp [hcr, Conserves, firesW, mergesW, countEv]
          · cases b2
            · simp [hcr, Conserves, firesW, mergesW, countEv]
            · simp only [hcr]
              rcases hpp : Handler.preparePartialTransfer ph
                  ⟨nextInfo.rawPath, nextInfo.fixedPath, nextInfo.params⟩ with er | ret
              · simp [hpp, Conserves, firesW, mergesW, countEv]
              · simp only [hpp]
                rcases hrp : Handler.renderingPartial nh ret.state with er | u
                all_goals
                  simp only [hrp, Conserves, firesW_append, mergesW_append,
                    firesW_cons, mergesW_cons, firesW_map_merged, mergesW_map_merged,
                    firesW_map_domMerged, mergesW_map_domMerged, firesW_nil,
                    mergesW_nil, cntW_append]
                all_goals simp

/-- The full transition conserves every watcher id: the whole pending
list fires and the list ends empty. -/
theorem transitionerFull_conserves (env : NavEnv) (h : Handler) (info : Option Info)
    (s : NavSt) (w : Nat) :
    Conserves w s.ignitersOnPathUnmatch
      ((transitionerFull env h info s).1).ignitersOnPathUnmatch
      (transitionerFull env h info s).2.1 := by
  obtain ⟨hf, hm, -⟩ := transitionerFull_watchers env h info s w
  obtain ⟨he, -⟩ := transitionerFull_ign_empty env h info s
  simp only [Conserves, hf, hm, he]
  simp [cntW]

/-- A special-target transition conserves every watcher id; in
particular a missing special route leaves the watcher list untouched. -/
theorem transitionToSpecial_conserves (env : NavEnv) (name : String) (s : NavSt)
    (w : Nat) :
    Conserves w s.ignitersOnPathUnmatch
      ((transitionToSpecial env name s).1).ignitersOnPathUnmatch
      (transitionToSpecial env name s).2.1 := by
  simp only [transitionToSpecial]
  rcases hf : env.router.findSpecialHandlerFactory name with _ | shf
  all_goals simp only [hf]
  · obtain ⟨pi, ph, igU, igD, dt⟩ := s
    simp [Conserves, firesW, mergesW, countEv]
  · rcases hc : SpecialHandlerFactory.create shf with er | hh
    all_goals simp only [hc]
    · simp [Conserves, firesW, mergesW, countEv]
    · exact transitionerFull_conserves env hh none s w

/-- The transitioner conserves every watcher id across all its tiers. -/
theorem transitioner_conserves (env : NavEnv) (p : String) (s : NavSt) (w : Nat) :
    Conserves w s.ignitersOnPathUnmatch
      ((transitioner env p s).1).ignitersOnPathUnmatch
      (transitioner env p s).2.1 := by
  simp only [transitioner]
  rcases hf : env.router.findHandlerFactory (Router.pathNormalize p) with _ | fh
  all_goals simp only [hf]
  · exact transitionToSpecial_conserves env ("notfound") s w
  · have hA := flush_conserves w (Router.pathNormalize p) s
    split
    next s2 t2 heq =>
      have hB := transitionerInpage_conserves
        ⟨Router.pathNormalize p, fh.fixedPath, fh.params⟩
        (igniteIgniterOnPathUnmatch (Router.pathNormalize p) s).1 w
      rw [heq] at hB
      exact conserves_comp _ _ _ _ _ _ hA hB
    next s2 t2 heq =>
      have hB := transitionerInpage_conserves
        ⟨Router.pathNormalize p, fh.fixedPath, fh.params⟩
        (igniteIgniterOnPathUnmatch (Router.pathNormalize p) s).1 w
      rw [heq] at hB
      split
      next er heq2 =>
        exact conserves_comp _ _ _ _ _ _ hA hB
      next nextHandler heq2 =>
        split
        next s3 t3 heq3 =>
          have hC := transitionerPartial_conserves nextHandler
            ⟨Router.pathNormalize p, fh.fixedPath, fh.params⟩ s2 w
          rw [heq3] at hC
          exact conserves_comp _ _ _ _ _ _ (conserves_comp _ _ _ _ _ _ hA hB) hC
        next s3 t3 heq3 =>
          have hC := transitionerPartial_conserves nextHandler
            ⟨Router.pathNormalize p, fh.fixedPath, fh.params⟩ s2 w
          rw [heq3] at hC
          have hD := transitionerFull_conserves env nextHandler
            (some ⟨Router.pathNormalize p, fh.fixedPath, fh.params⟩) s3 w
          exact conserves_comp _ _ _ _ _ _
            (conserves_comp _ _ _ _ _ _ (conserves_comp _ _ _ _ _ _ hA hB) hC) hD
        next s3 t3 er heq3 =>
          have hC := transitionerPartial_conserves nextHandler
            ⟨Router.pathNormalize p, fh.fixedPath, fh.params⟩ s2 w
          rw [heq3] at hC
          have hD := transitionerFull_conserves env nextHandler
            (some ⟨Router.pathNormalize p, fh.fixedPath, fh.params⟩) s3 w
          exact conserves_comp _ _ _ _ _ _
            (conserves_comp _ _ _ _ _ _ (conserves_comp _ _ _ _ _ _ hA hB) hC) hD
    next s2 t2 er heq =>
      have hB := transitionerInpage_conserves
        ⟨Router.pathNormalize p, fh.fixedPath, fh.params⟩
        (igniteIgniterOnPathUnmatch (Router.pathNormalize p) s).1 w
      rw [heq] at hB
      split
      next er2 heq2 =>
        exact conserves_comp _ _ _ _ _ _ hA hB
      next nextHandler heq2 =>
        have hD := transitionerFull_conserves env nextHandler
          (some ⟨Router.pathNormalize p, fh.fixedPath, fh.params⟩) s2 w
        exact conserves_comp _ _ _ _ _ _ (conserves_comp _ _ _ _ _ _ hA hB) hD

/-- The guarded special transition conserves every watcher id. -/
theorem tSWEH_conserves (env : NavEnv) (name : String) (s : NavSt) (w : Nat) :
    Conserves w s.ignitersOnPathUnmatch
      ((transitionerToSpecialWithErrorHandling env name s).1).ignitersOnPathUnmatch
      (transitionerToSpecialWithErrorHandling env name s).2.1 := by
  simp only [transitionerToSpecialWithErrorHandling]
  split
  next s1 t1 u heq =>
    have h1 := transitionToSpecial_conserves env name s w
    rw [heq] at h1
    exact h1
  next s1 t1 er heq =>
    have h1 := transitionToSpecial_conserves env name s w
    rw [heq] at h1
    by_cases hn : name ≠ "error"
    · rw [if_pos hn]
      split
      next s2 t2 u2 heq2 =>
        have h2 := transitionToSpecial_conserves env ("error") s1 w
        rw [heq2] at h2
        exact conserves_comp _ _ _ _ _ _ h1 h2
      next s2 t2 er2 heq2 =>
        have h2 := transitionToSpecial_conserves env ("error") s1 w
        rw [heq2] at h2
        exact conserves_comp _ _ _ _ _ _ h1 h2
    · rw [if_neg hn]
      exact h1

/-- A guarded navigation conserves every watcher id. -/
theorem tWEH_conserves (env : NavEnv) (p : String) (s : NavSt) (w : Nat) :
    Conserves w s.ignitersOnPathUnmatch
      ((transitionerWithErrorHandling env p s).1).ignitersOnPathUnmatch
      (transitionerWithErrorHandling env p s).2.1 := by
  simp only [transitionerWithErrorHandling]
  split
  next s1 t1 u heq =>
    have h1 := transitioner_conserves env p s w
    rw [heq] at h1
    exact h1
  next s1 t1 er heq =>
    have h1 := transitioner_conserves env p s w
    rw [heq] at h1
    have h2 := tSWEH_conserves env ("error") s1 w
    exact conserves_comp _ _ _ _ _ _ h1 h2

/-- A whole navigation sequence conserves every watcher id: each entry
of the list leaves it exactly by firing and enters it exactly by a
partial-transition merge. -/
theorem runSeq_conserves (env : NavEnv) (paths : List String) (s : NavSt) (w : Nat) :
    Conserves w s.ignitersOnPathUnmatch
      ((runSeq env paths s).1).ignitersOnPathUnmatch
      (runSeq env paths s).2 := by
  induction paths generalizing s with
  | nil => simp [runSeq, Conserves, firesW, mergesW, countEv]
  | cons p rest ih =>
    simp only [runSeq]
    exact conserves_comp _ _ _ _ _ _ (tWEH_conserves env p s w)
      (ih (transitionerWithErrorHandling env p s).1)

/-- The fired flush events of a navigation step include one firing for a
pending watcher whose pattern stops matching. -/
theorem firedEvs_fires_pos (p : String) (s : NavSt) (w : Nat) (ig : Igniter)
    (hm : ig ∈ s.ignitersOnPathUnmatch) (hid : ig.id = w)
    (hk : igniterKept (splitSegs p) ig = false) :
    1 ≤ firesW w (firedEvs p s) := by
  rw [firedEvs, firesW_map_unmatch]
  exact cntW_pos_of_mem w _ ig (List.mem_filter.mpr ⟨hm, by simp [hk]⟩) hid

/-- When the path resolves, the transitioner's trace contains at least
the stale-watcher flush events. -/
theorem transitioner_fires_lower (env : NavEnv) (p : String) (s : NavSt) (w : Nat)
    (fh : FindRet HandlerFactory)
    (hf : env.router.findHandlerFactory (Router.pathNormalize p) = some fh) :
    firesW w (firedEvs (Router.pathNormalize p) s)
      ≤ firesW w (transitioner env p s).2.1 := by
  simp only [transitioner, hf]
  split
  · simp only [igniteFlush_trace, firesW_append]
    omega
  · split
    · simp only [igniteFlush_trace, firesW_append]
      omega
    · split
      all_goals simp only [igniteFlush_trace, firesW_append]
      all_goals omega
  · split
    all_goals simp only [igniteFlush_trace, firesW_append]
    all_goals omega

/-- The guarded navigation only appends to the transitioner's trace. -/
theorem tWEH_fires_lower (env : NavEnv) (p : String) (s : NavSt) (w : Nat) :
    firesW w (transitioner env p s).2.1
      ≤ firesW w (transitionerWithErrorHandling env p s).2.1 := by
  simp only [transitionerWithErrorHandling]
  split
  next s1 t1 u heq =>
    rw [heq]
  next s1 t1 er heq =>
    rw [heq]
    exact le_of_le_of_eq
      (Nat.le_add_right (firesW w t1)
        (firesW w (transitionerToSpecialWithErrorHandling env ("error") s1).2.1))
      (firesW_append w t1 _).symm

/-- For the error page itself, the guarded special transition is exactly
the raw special transition: the failure is rethrown with no recovery. -/
theorem tSWEH_error_eq (env : NavEnv) (s : NavSt) :
    transitionerToSpecialWithErrorHandling env ("error") s
      = transitionToSpecial env ("error") s := by
  simp only [transitionerToSpecialWithErrorHandling]
  split
  case h_1 s1 t1 u heq => rw [← heq]
  case h_2 s1 t1 er heq => simp [← heq]

/-- C7: if the error special route is unregistered, or the error page's
own construction or render fails, the failure is fatal: the guarded
special transition for the error page is literally the raw transition
(so the error is rethrown to the navigation caller with no further
recovery attempt and no retry of the error page), and a navigation whose
transitioner fails while the error special route is unregistered returns
the specialNotFound error to the caller with no additional transition
activity in state or trace. -/
theorem claim_c7_critical_failure :
    (∀ (env : NavEnv) (s : NavSt),
        transitionerToSpecialWithErrorHandling env ("error") s
          = transitionToSpecial env ("error") s)
    ∧ (∀ (env : NavEnv) (p : String) (s s1 : NavSt) (t1 : List Ev) (e : Err),
        transitioner env p s = (s1, t1, .error e) →
        env.router.findSpecialHandlerFactory ("error") = none →
        transitionerWithErrorHandling env p s
          = ({ s1 with prevHandler := none, prevInfo := none }, t1,
             .error (.specialNotFound ("error")))) := by
  constructor
  · exact tSWEH_error_eq
  · intro env p s s1 t1 e h1 h2
    simp only [transitionerWithErrorHandling, h1]
    rw [tSWEH_error_eq]
    simp [transitionToSpecial, h2]

/-- Witness for C7: on an empty route table, a navigation fails at
notfound, the error page is also missing, and the caller receives the
fatal specialNotFound error with no recovery. -/
theorem claim_c7_critical_failure_witness :
    transitioner fxEmptyEnv ("x") (stWith none none)
        = (stWith none none, [], .error (.specialNotFound ("notfound"))) ∧
    Router.findSpecialHandlerFactory fxEmptyEnv.router ("error") = none ∧
    transitionerWithErrorHandling fxEmptyEnv ("x") (stWith none none)
        = (stWith none none, [], .error (.specialNotFound ("error"))) :=
  ⟨rfl, rfl,
   claim_c7_critical_failure.2 fxEmptyEnv ("x") (stWith none none) (stWith none none)
     [] (.specialNotFound ("notfound")) rfl rfl⟩

/-- C8: after every completed transition whose target is a special page
(a successful transitionToSpecial, a completed navigation whose path had
no route match, a successful navigateSpecial, or a navigation completed
through the error recovery), the previous Navigation State is null, so a
special page never becomes the current route of a later in-page or
partial transition. -/
theorem claim_c8_special_clears_state :
    (∀ (env : NavEnv) (name : String) (s s' : NavSt) (t : List Ev),
        transitionToSpecial env name s = (s', t, .ok ()) → s'.prevInfo = none)
    ∧ (∀ (env : NavEnv) (p : String) (s s' : NavSt) (t : List Ev),
        env.router.findHandlerFactory (Router.pathNormalize p) = none →
        transitioner env p s = (s', t, .ok ()) → s'.prevInfo = none)
    ∧ (∀ (env : NavEnv) (name : String) (s s' : NavSt) (t : List Ev),
        navigateSpecial env name s = (s', t, .ok ()) → s'.prevInfo = none)
    ∧ (∀ (env : NavEnv) (p : String) (s s1 s' : NavSt) (t1 t : List Ev) (e : Err),
        transitioner env p s = (s1, t1, .error e) →
        transitionerWithErrorHandling env p s = (s', t, .ok ()) →
        s'.prevInfo = none) := by
  refine ⟨?_, ?_, ?_, ?_⟩
  · intro env name s s' t heq
    exact (transitionToSpecial_ok env name s s' t heq).1
  · intro env p s s' t hfind heq
    simp only [transitioner, hfind] at heq
    exact (transitionToSpecial_ok env ("notfound") s s' t heq).1
  · intro env name s s' t heq
    simp only [navigateSpecial, transitionerToSpecialWithErrorHandling] at heq
    split at heq
    case h_1 s1 t1 u heq1 =>
      simp only [Prod.mk.injEq] at heq
      obtain ⟨h1, h2, -⟩ := heq
      subst h1; subst h2
      cases u
      exact (transitionToSpecial_ok env name s _ _ heq1).1
    case h_2 s1 t1 er heq1 =>
      split at heq
      · split at heq
        · simp at heq
        · simp at heq
      · simp at heq
  · intro env p s s1 s' t1 t e h1 heq
    simp only [transitionerWithErrorHandling, h1] at heq
    rw [tSWEH_error_eq] at heq
    rcases h2 : transitionToSpecial env ("error") s1 with ⟨s2, t2, r2⟩
    rw [h2] at heq
    simp only [Prod.mk.injEq] at heq
    obtain ⟨h3, -, h4⟩ := heq
    subst h3
    cases r2 with
    | error er2 => simp at h4
    | ok u =>
      cases u
      exact (transitionToSpecial_ok env ("error") s1 _ _ h2).1

/-- Witness for C8 on concrete runs: a successful error-special
transition, a completed navigation to an unroutable path, a successful
navigateSpecial, and a navigation completed through error recovery all
leave a null Navigation State. -/
theorem claim_c8_special_clears_state_witness :
    ((transitionToSpecial fxErrOnlyEnv ("error")
        (stWith (some ⟨"a", "a", []⟩) (some (baseHandler 1)))).1).prevInfo = none ∧
    Router.findHandlerFactory fxNfOnlyEnv.router (Router.pathNormalize ("zzz")) = none ∧
    ((transitioner fxNfOnlyEnv ("zzz") (stWith none none)).1).prevInfo = none ∧
    ((navigateSpecial fxErrOnlyEnv ("error") (stWith none none)).1).prevInfo = none ∧
    ((transitionerWithErrorHandling fxErrOnlyEnv ("zzz") (stWith none none)).1).prevInfo
      = none := by
  refine ⟨?_, rfl, ?_, ?_, ?_⟩
  · exact claim_c8_special_clears_state.1 fxErrOnlyEnv ("error")
      (stWith (some ⟨"a", "a", []⟩) (some (baseHandler 1))) _ _ rfl
  · exact claim_c8_special_clears_state.2.1 fxNfOnlyEnv ("zzz") (stWith none none) _ _
      rfl rfl
  · exact claim_c8_special_clears_state.2.2.1 fxErrOnlyEnv ("error") (stWith none none)
      _ _ rfl
  · exact claim_c8_special_clears_state.2.2.2 fxErrOnlyEnv ("zzz") (stWith none none)
      (stWith none none) _ [] _ (.specialNotFound ("notfound")) rfl rfl

/-- C10: a navigateSpecial call for a non-error target whose special
transition throws first performs a full transition to the error special
page (a full render of the error controller occurs) and then still
rethrows the original failure to the caller. -/
theorem claim_c10_navigate_special_rethrows :
    ∀ (env : NavEnv) (name : String) (s s1 s2 : NavSt) (t1 t2 : List Ev) (e : Err),
      name ≠ "error" →
      transitionToSpecial env name s = (s1, t1, .error e) →
      transitionToSpecial env ("error") s1 = (s2, t2, .ok ()) →
      navigateSpecial env name s = (s2, t1 ++ t2, .error e)
        ∧ ∃ hid, Ev.renderingFull hid ∈ t2 := by
  intro env name s s1 s2 t1 t2 e hname h1 h2
  constructor
  · simp only [navigateSpecial, transitionerToSpecialWithErrorHandling, h1]
    rw [if_pos hname, h2]
  · obtain ⟨-, hid, hmem⟩ := transitionToSpecial_ok env ("error") s1 s2 t2 h2
    exact ⟨hid, hmem⟩

/-- Witness for C10: navigating to the unregistered special page boom
with a healthy error page renders the error page fully and still returns
the original specialNotFound failure to the caller. -/
theorem claim_c10_navigate_special_rethrows_witness :
    ("boom" : String) ≠ "error" ∧
    (navigateSpecial fxErrOnlyEnv ("boom") (stWith none none)
        = ((transitionToSpecial fxErrOnlyEnv ("error") (stWith none none)).1,
           [] ++ (transitionToSpecial fxErrOnlyEnv ("error") (stWith none none)).2.1,
           .error (.specialNotFound ("boom")))
      ∧ ∃ hid, Ev.renderingFull hid ∈
          (transitionToSpecial fxErrOnlyEnv ("error") (stWith none none)).2.1) :=
  ⟨by decide,
   claim_c10_navigate_special_rethrows fxErrOnlyEnv ("boom") (stWith none none)
     (stWith none none) _ [] _ (.specialNotFound ("boom")) (by decide) rfl rfl⟩

/-- C1 counterexample: the in-page tier is applicable (capability true)
and its render throws, yet the navigation completes successfully through
a full render of the freshly constructed controller, with no error
special route even registered, so no redirect to the error page can have
happened; this refutes the claim that a throwing applicable tier is not
retried at a lower tier and propagates to the error-isolation step. -/
theorem claim_c1_counterexample :
    Handler.canInpageTransferTo fxInpageThrow ([]) = .ok true ∧
    Handler.renderingInpage fxInpageThrow ([])
        = .error (.thrown ("inpage render failed")) ∧
    Router.findSpecialHandlerFactory fxEnvA.router ("error") = none ∧
    (transitionerWithErrorHandling fxEnvA ("a") fxS0).2.2 = .ok () ∧
    Ev.renderingFull 2 ∈ (transitionerWithErrorHandling fxEnvA ("a") fxS0).2.1 := by
  exact ⟨rfl, rfl, rfl, rfl, by decide⟩

/-- C1 amended: a tier render failure is never retried at the in-page or
partial tiers, but it does not propagate either: an applicable in-page
tier whose render throws falls back to the full tier of the same
navigation (the partial tier is skipped), and an applicable partial tier
whose render throws likewise falls back to the full tier (whose outcome
is the navigation's outcome, so the partial error is swallowed); only a
failure of the full tier itself propagates to the error-isolation step,
which fully renders the error special page. -/
theorem claim_c1_amended :
    (∀ (env : NavEnv) (p : String) (s : NavSt) (found : FindRet HandlerFactory)
        (prev : Info) (A B : Handler) (e : Err),
        env.router.findHandlerFactory (Router.pathNormalize p) = some found →
        s.prevInfo = some prev →
        prev.fixedPath = found.fixedPath →
        s.prevHandler = some A →
        Handler.canInpageTransferTo A found.params = .ok true →
        Handler.renderingInpage A found.params = .error e →
        HandlerFactory.create found.handlerFactory
            (mkCtx ⟨Router.pathNormalize p, found.fixedPath, found.params⟩ s) = .ok B →
        Ev.renderingInpage A.id ∈ (transitioner env p s).2.1
          ∧ Ev.fullStart ∈ (transitioner env p s).2.1
          ∧ (∀ hid, Ev.renderingPartial hid ∉ (transitioner env p s).2.1))
    ∧ (∀ (env : NavEnv) (p : String) (s : NavSt) (found : FindRet HandlerFactory)
        (prev : Info) (A B : Handler) (ret : PrepRet) (e : Err),
        env.router.findHandlerFactory (Router.pathNormalize p) = some found →
        s.prevInfo = some prev →
        prev.fixedPath ≠ found.fixedPath →
        s.prevHandler = some A →
        HandlerFactory.create found.handlerFactory
            (mkCtx ⟨Router.pathNormalize p, found.fixedPath, found.params⟩ s) = .ok B →
        Handler.canPartialTransferToNextPath A
            ⟨Router.pathNormalize p, found.fixedPath, found.params⟩ = .ok true →
        Handler.canPartialReceiveFromPrevPath B = .ok true →
        Handler.preparePartialTransfer A
            ⟨Router.pathNormalize p, found.fixedPath, found.params⟩ = .ok ret →
        Handler.renderingPartial B ret.state = .error e →
        Ev.renderingPartial B.id ∈ (transitioner env p s).2.1
          ∧ Ev.fullStart ∈ (transitioner env p s).2.1
          ∧ (transitioner env p s).2.2
              = (transitionerFull env B
                  (some ⟨Router.pathNormalize p, found.fixedPath, found.params⟩)
                  ((transitionerPartial B
                      ⟨Router.pathNormalize p, found.fixedPath, found.params⟩
                      (flushedSt (Router.pathNormalize p) s)).1)).2.2)
    ∧ (∀ (env : NavEnv) (p : String) (s : NavSt) (found : FindRet HandlerFactory)
        (B E : Handler) (e : Err) (tB tE : Option String)
        (sf : SpecialHandlerFactory),
        s.prevInfo = none →
        env.router.findHandlerFactory (Router.pathNormalize p) = some found →
        HandlerFactory.create found.handlerFactory
            (mkCtx ⟨Router.pathNormalize p, found.fixedPath, found.params⟩ s) = .ok B →
        Handler.getTitle B = .ok tB →
        Handler.getHtmlAssetPath B = .ok none →
        Handler.renderingFull B = .error e →
        env.router.findSpecialHandlerFactory ("error") = some sf →
        SpecialHandlerFactory.create sf = .ok E →
        Handler.getTitle E = .ok tE →
        Handler.getHtmlAssetPath E = .ok none →
        Handler.renderingFull E = .ok () →
        (transitionerWithErrorHandling env p s).2.2 = .ok ()
          ∧ ∃ T1 T2, (transitionerWithErrorHandling env p s).2.1 = T1 ++ T2
              ∧ Ev.renderingFull B.id ∈ T1 ∧ Ev.renderingFull E.id ∈ T2) := by
  refine ⟨?_, ?_, ?_⟩
  · intro env p s found prev A B e hfind hprev hfx hph hcan hrender hcreate
    have heq := transitioner_inpage_throw_run env p s found prev A B e hfind hprev
      hfx hph hcan hrender hcreate
    obtain ⟨hnp, hfs⟩ := transitionerFull_no_partial_events env B
      (some ⟨Router.pathNormalize p, found.fixedPath, found.params⟩)
      (flushedSt (Router.pathNormalize p) s)
    rw [heq]
    refine ⟨by simp, ?_, ?_⟩
    · simp only [List.mem_append]
      exact Or.inr hfs
    · intro hid hmem
      simp only [List.mem_append] at hmem
      rcases hmem with (h1 | h1) | h1
      · obtain ⟨ig, -, hig⟩ := List.mem_map.mp h1
        exact absurd hig (by simp)
      · simp at h1
      · exact hnp hid h1
  · intro env p s found prev A B ret e hfind hprev hfx hph hcreate hcanp hcanr
      hprep hrp
    have heq := transitioner_partial_throw_run env p s found prev A B ret e hfind
      hprev hfx hph hcreate hcanp hcanr hprep hrp
    obtain ⟨-, hfs⟩ := transitionerFull_no_partial_events env B
      (some ⟨Router.pathNormalize p, found.fixedPath, found.params⟩)
      ((transitionerPartial B ⟨Router.pathNormalize p, found.fixedPath, found.params⟩
          (flushedSt (Router.pathNormalize p) s)).1)
    have hmemP := (transitionerPartial_throw_eval B
        ⟨Router.pathNormalize p, found.fixedPath, found.params⟩
        (flushedSt (Router.pathNormalize p) s) prev A ret e
        (by simp [flushedSt, hprev]) (by simp [flushedSt, hph])
        hcanp hcanr hprep hrp).2
    rw [heq]
    refine ⟨?_, ?_, rfl⟩
    · simp only [List.mem_append]
      exact Or.inl (Or.inr hmemP)
    · simp only [List.mem_append]
      exact Or.inr hfs
  · intro env p s found B E e tB tE sf hprev hfind hcreate hTB hAB hRB hsf hcE
      hTE hAE hRE
    have heq := transitioner_cold_full_run env p s found B hfind hprev hcreate
    obtain ⟨hres4, hmemB, -, -, -, -⟩ := transitionerFull_render_error env B
      (some ⟨Router.pathNormalize p, found.fixedPath, found.params⟩)
      (flushedSt (Router.pathNormalize p) s) e tB none hTB hAB trivial hRB
    have heq2 : transitioner env p s
        = ((transitionerFull env B
              (some ⟨Router.pathNormalize p, found.fixedPath, found.params⟩)
              (flushedSt (Router.pathNormalize p) s)).1,
           firedEvs (Router.pathNormalize p) s
             ++ (transitionerFull env B
                  (some ⟨Router.pathNormalize p, found.fixedPath, found.params⟩)
                  (flushedSt (Router.pathNormalize p) s)).2.1,
           .error e) := by
      rw [heq, hres4]
    obtain ⟨hres5, hmemE, -, -⟩ := transitionerFull_render_ok env E none
      ((transitionerFull env B
          (some ⟨Router.pathNormalize p, found.fixedPath, found.params⟩)
          (flushedSt (Router.pathNormalize p) s)).1) tE hTE hAE hRE
    have hspec : transitionToSpecial env ("error")
        ((transitionerFull env B
            (some ⟨Router.pathNormalize p, found.fixedPath, found.params⟩)
            (flushedSt (Router.pathNormalize p) s)).1)
        = transitionerFull env E none
            ((transitionerFull env B
                (some ⟨Router.pathNormalize p, found.fixedPath, found.params⟩)
                (flushedSt (Router.pathNormalize p) s)).1) := by
      simp [transitionToSpecial, hsf, hcE]
    simp only [transitionerWithErrorHandling, heq2]
    rw [tSWEH_error_eq, hspec]
    rcases hfull5 : transitionerFull env E none
        ((transitionerFull env B
            (some ⟨Router.pathNormalize p, found.fixedPath, found.params⟩)
            (flushedSt (Router.pathNormalize p) s)).1) with ⟨s5, t5, r5⟩
    rw [hfull5] at hres5 hmemE
    simp only at hres5 hmemE
    subst hres5
    refine ⟨rfl, ?_⟩
    refine ⟨firedEvs (Router.pathNormalize p) s
        ++ (transitionerFull env B
            (some ⟨Router.pathNormalize p, found.fixedPath, found.params⟩)
            (flushedSt (Router.pathNormalize p) s)).2.1, t5, by simp, ?_, hmemE⟩
    simp only [List.mem_append]
    exact Or.inr hmemB

/-- C2 counterexample: the incoming controller (id 7) throws in
renderingFull mid-way through a full transition; the error special
controller (id 8) is then fully rendered, but cleanupFull of the
controller whose render threw is never invoked (the recovery teardown
cleans the still-current outgoing controller instead), refuting the
claim. -/
theorem claim_c2_counterexample :
    Handler.renderingFull fxFullThrow = .error (.thrown ("full render failed")) ∧
    (transitionerWithErrorHandling fxEnvB ("b") fxSWarm).2.2 = .ok () ∧
    Ev.renderingFull 8 ∈ (transitionerWithErrorHandling fxEnvB ("b") fxSWarm).2.1 ∧
    Ev.cleanupFull 7 ∉ (transitionerWithErrorHandling fxEnvB ("b") fxSWarm).2.1 := by
  exact ⟨rfl, rfl, by decide, by decide⟩

/-- C2 amended: when the incoming controller's full render throws mid-way
through a full transition, the error special controller is fully
rendered, and cleanupFull of the outgoing controller (which remains the
current handler, because the failed render never replaced it) is invoked
a second time during the recovery's teardown step; the controller whose
render threw is never cleaned up. -/
theorem claim_c2_amended :
    ∀ (env : NavEnv) (p : String) (s : NavSt) (found : FindRet HandlerFactory)
      (prev : Info) (A B E : Handler) (e : Err) (tB tE : Option String)
      (sf : SpecialHandlerFactory),
      s.prevInfo = some prev →
      s.prevHandler = some A →
      env.router.findHandlerFactory (Router.pathNormalize p) = some found →
      prev.fixedPath ≠ found.fixedPath →
      Handler.canPartialTransferToNextPath A
          ⟨Router.pathNormalize p, found.fixedPath, found.params⟩ = .ok false →
      HandlerFactory.create found.handlerFactory
          (mkCtx ⟨Router.pathNormalize p, found.fixedPath, found.params⟩ s) = .ok B →
      Handler.getTitle B = .ok tB →
      Handler.getHtmlAssetPath B = .ok none →
      Handler.renderingFull B = .error e →
      env.router.findSpecialHandlerFactory ("error") = some sf →
      SpecialHandlerFactory.create sf = .ok E →
      Handler.getTitle E = .ok tE →
      Handler.getHtmlAssetPath E = .ok none →
      Handler.renderingFull E = .ok () →
      A.id ≠ B.id →
      (transitionerWithErrorHandling env p s).2.2 = .ok ()
        ∧ countEv (Ev.cleanupFull A.id)
            (transitionerWithErrorHandling env p s).2.1 = 2
        ∧ Ev.cleanupFull B.id ∉ (transitionerWithErrorHandling env p s).2.1
        ∧ ∃ T1 T2, (transitionerWithErrorHandling env p s).2.1 = T1 ++ T2
            ∧ Ev.renderingFull B.id ∈ T1
            ∧ countEv (Ev.cleanupFull A.id) T2 = 1
            ∧ Ev.renderingFull E.id ∈ T2 := by
  intro env p s found prev A B E e tB tE sf hprev hph hfind hfx hcanp hcreate hTB
    hAB hRB hsf hcE hTE hAE hRE hABne
  have heq := transitioner_warm_decline_run env p s found prev A B hfind hprev hfx
    hph hcanp hcreate
  obtain ⟨hres4, hmemB4, hph4, -, -, -⟩ := transitionerFull_render_error env B
    (some ⟨Router.pathNormalize p, found.fixedPath, found.params⟩)
    (flushedSt (Router.pathNormalize p) s) e tB none hTB hAB trivial hRB
  have hs1ph : (flushedSt (Router.pathNormalize p) s).prevHandler = some A := by
    simp [flushedSt, hph]
  have heq2 : transitioner env p s
      = ((transitionerFull env B
            (some ⟨Router.pathNormalize p, found.fixedPath, found.params⟩)
            (flushedSt (Router.pathNormalize p) s)).1,
         firedEvs (Router.pathNormalize p) s
           ++ (transitionerFull env B
                (some ⟨Router.pathNormalize p, found.fixedPath, found.params⟩)
                (flushedSt (Router.pathNormalize p) s)).2.1,
         .error e) := by
    rw [heq, hres4]
  obtain ⟨hres5, hmemE5, -, -⟩ := transitionerFull_render_ok env E none
    ((transitionerFull env B
        (some ⟨Router.pathNormalize p, found.fixedPath, found.params⟩)
        (flushedSt (Router.pathNormalize p) s)).1) tE hTE hAE hRE
  have hcount5 := transitionerFull_count_cleanup env E none
    ((transitionerFull env B
        (some ⟨Router.pathNormalize p, found.fixedPath, found.params⟩)
        (flushedSt (Router.pathNormalize p) s)).1)
  have hcount4 := transitionerFull_count_cleanup env B
    (some ⟨Router.pathNormalize p, found.fixedPath, found.params⟩)
    (flushedSt (Router.pathNormalize p) s)
  rw [hs1ph] at hcount4
  rw [hph4, hs1ph] at hcount5
  have hspec : transitionToSpecial env ("error")
      ((transitionerFull env B
          (some ⟨Router.pathNormalize p, found.fixedPath, found.params⟩)
          (flushedSt (Router.pathNormalize p) s)).1)
      = transitionerFull env E none
          ((transitionerFull env B
              (some ⟨Router.pathNormalize p, found.fixedPath, found.params⟩)
              (flushedSt (Router.pathNormalize p) s)).1) := by
    simp [transitionToSpecial, hsf, hcE]
  simp only [transitionerWithErrorHandling, heq2]
  rw [tSWEH_error_eq, hspec]
  rcases hfull5 : transitionerFull env E none
      ((transitionerFull env B
          (some ⟨Router.pathNormalize p, found.fixedPath, found.params⟩)
          (flushedSt (Router.pathNormalize p) s)).1) with ⟨s5, t5, r5⟩
  rw [hfull5] at hres5 hmemE5 hcount5
  simp only at hres5 hmemE5 hcount5
  subst hres5
  have hfired0 : ∀ hid, countEv (Ev.cleanupFull hid)
      (firedEvs (Router.pathNormalize p) s) = 0 := by
    intro hid
    simp only [firedEvs]
    exact countEv_cleanup_map_unmatch hid _
  have hAcount : countEv (Ev.cleanupFull A.id) [Ev.cleanupFull A.id] = 1 := by
    simp [countEv]
  have hBcount : countEv (Ev.cleanupFull B.id) [Ev.cleanupFull A.id] = 0 := by
    simp [countEv, List.countP_cons]
    intro hcontra
    exact absurd hcontra hABne
  refine ⟨rfl, ?_, ?_, ?_⟩
  · simp only [countEv_append, hfired0, hcount4 A.id, hcount5 A.id, hAcount]
  · rw [← countEv_eq_zero_iff]
    simp only [countEv_append, hfired0, hcount4 B.id, hcount5 B.id, hBcount]
  · refine ⟨firedEvs (Router.pathNormalize p) s
        ++ (transitionerFull env B
            (some ⟨Router.pathNormalize p, found.fixedPath, found.params⟩)
            (flushedSt (Router.pathNormalize p) s)).2.1, t5, by simp, ?_, ?_, hmemE5⟩
    · simp only [List.mem_append]
      exact Or.inr hmemB4
    · rw [hcount5 A.id, hAcount]

/-- Witness for the amended C2 on a concrete run: the warm page x with
controller id 9 navigates to b whose controller id 7 throws in full
render; the recovery fully renders the error controller id 8, cleans up
controller 9 twice and never cleans controller 7. -/
theorem claim_c2_amended_witness :
    (transitionerWithErrorHandling fxEnvB ("b") fxSWarm).2.2 = .ok ()
      ∧ countEv (Ev.cleanupFull (baseHandler 9).id)
          (transitionerWithErrorHandling fxEnvB ("b") fxSWarm).2.1 = 2
      ∧ Ev.cleanupFull fxFullThrow.id
          ∉ (transitionerWithErrorHandling fxEnvB ("b") fxSWarm).2.1
      ∧ ∃ T1 T2, (transitionerWithErrorHandling fxEnvB ("b") fxSWarm).2.1 = T1 ++ T2
          ∧ Ev.renderingFull fxFullThrow.id ∈ T1
          ∧ countEv (Ev.cleanupFull (baseHandler 9).id) T2 = 1
          ∧ Ev.renderingFull (baseHandler 8).id ∈ T2 :=
  claim_c2_amended fxEnvB ("b") fxSWarm ⟨constFactory fxFullThrow, "b", []⟩
    ⟨"x", "x", []⟩ (baseHandler 9) fxFullThrow (baseHandler 8)
    (.thrown ("full render failed")) none none (constSpecialFactory (baseHandler 8))
    rfl rfl rfl (by decide) rfl rfl rfl rfl rfl rfl rfl rfl rfl rfl (by decide)

/-- Witness for the amended C1: part one on a run whose applicable
in-page render throws (full tier runs, partial never does), part two on
a run whose applicable partial render throws (the full tier still runs
and decides the outcome), part three on a run whose full render throws
(the error page is fully rendered after the failed full render and the
navigation call resolves). -/
theorem claim_c1_amended_witness :
    (Ev.renderingInpage fxInpageThrow.id ∈ (transitioner fxEnvA ("a") fxS0).2.1
      ∧ Ev.fullStart ∈ (transitioner fxEnvA ("a") fxS0).2.1
      ∧ (∀ hid, Ev.renderingPartial hid ∉ (transitioner fxEnvA ("a") fxS0).2.1))
    ∧ (Ev.renderingPartial fxPartThrowTo.id
          ∈ (transitioner fxPartThrowEnv ("q") fxSPartThrow).2.1
      ∧ Ev.fullStart ∈ (transitioner fxPartThrowEnv ("q") fxSPartThrow).2.1
      ∧ (transitioner fxPartThrowEnv ("q") fxSPartThrow).2.2
          = (transitionerFull fxPartThrowEnv fxPartThrowTo
              (some ⟨Router.pathNormalize ("q"), "q", []⟩)
              ((transitionerPartial fxPartThrowTo
                  ⟨Router.pathNormalize ("q"), "q", []⟩
                  (flushedSt (Router.pathNormalize ("q")) fxSPartThrow)).1)).2.2)
    ∧ ((transitionerWithErrorHandling fxEnvB ("b") (stWith none none)).2.2 = .ok ()
      ∧ ∃ T1 T2,
          (transitionerWithErrorHandling fxEnvB ("b") (stWith none none)).2.1
            = T1 ++ T2
          ∧ Ev.renderingFull fxFullThrow.id ∈ T1
          ∧ Ev.renderingFull (baseHandler 8).id ∈ T2) :=
  ⟨claim_c1_amended.1 fxEnvA ("a") fxS0
      ⟨constFactory (baseHandler 2), "a", []⟩ ⟨"a", "a", []⟩ fxInpageThrow
      (baseHandler 2) (.thrown ("inpage render failed")) rfl rfl rfl rfl rfl rfl rfl,
   claim_c1_amended.2.1 fxPartThrowEnv ("q") fxSPartThrow
      ⟨constFactory fxPartThrowTo, "q", []⟩ ⟨"x", "x", []⟩ fxPartClaimFrom
      fxPartThrowTo ⟨none, none, none⟩ (.thrown ("partial render failed"))
      rfl rfl (by decide) rfl rfl rfl rfl rfl rfl,
   claim_c1_amended.2.2 fxEnvB ("b") (stWith none none)
      ⟨constFactory fxFullThrow, "b", []⟩ fxFullThrow (baseHandler 8)
      (.thrown ("full render failed")) none none (constSpecialFactory (baseHandler 8))
      rfl rfl rfl rfl rfl rfl rfl rfl rfl rfl rfl⟩

/-- C3 counterexample: the patterns :x and :y registered on one router
occupy the same parameter slot (the second registration replaces the
first), so looking up the exact path the pattern :x was registered with
returns the factory registered for :y (2, not 1), with the parameter
bound under the name y rather than x; the claim fails for this
collection. -/
theorem claim_c3_counterexample :
    (buildRouter [((":x" : String), (1 : Nat)), (":y", 2)]
        : Router Nat Unit).findHandlerFactory (":x")
      = some ⟨2, ":y", [("y", ":x")]⟩
    ∧ (2 : Nat) ≠ 1 := by
  exact ⟨by decide, by decide⟩

/-- C3 amended: for a collection of well-formed patterns (wildcard only
terminal, distinct declared names) that are pairwise non-conflicting (no
two agree on a literal prefix and then both place a parameter-or-
wildcard segment at the same position, and no two normalize to the same
leaf), matching the exact literal path a pattern was registered with
returns that pattern's factory, and the parameter keys are exactly the
pattern's declared names plus the wildcard key for a terminal
wildcard — empty for an all-literal pattern. -/
theorem claim_c3_amended :
    ∀ (α σ : Type) (L L1 L2 : List (String × α)) (p : String) (f : α),
      L = L1 ++ (p, f) :: L2 →
      (∀ pf ∈ L, wfPattern (patSegs pf.1)) →
      List.Pairwise
        (fun a b => conflictSegs (patSegs a.1) (patSegs b.1) = false) L →
      (buildRouter L : Router α σ).findHandlerFactory p
          = some ⟨f, joinSegs (patSegs p), paramsOfPattern (patSegs p)⟩
        ∧ (paramsOfPattern (patSegs p)).map Prod.fst = declaredKeys (patSegs p) := by
  intro α σ L L1 L2 p f hL hwf hpw
  subst hL
  obtain ⟨hwf1, hwf2, hwf3⟩ := hwf (p, f) (by simp)
  rw [List.pairwise_append] at hpw
  obtain ⟨-, hpwRest, hcross⟩ := hpw
  rw [List.pairwise_cons] at hpwRest
  obtain ⟨hhead, -⟩ := hpwRest
  have hcompat1 : ∀ pf ∈ L1, conflictSegs (patSegs pf.1) (patSegs p) = false :=
    fun pf hpf => hcross pf hpf (p, f) (by simp)
  have hcompat2 : ∀ pf ∈ L2, conflictSegs (patSegs pf.1) (patSegs p) = false :=
    fun pf hpf => by rw [conflictSegs_symm]; exact hhead pf hpf
  constructor
  · have hroutes := buildRouter_routes (σ := σ) (L1 ++ (p, f) :: L2)
    show findSegs (buildRouter (L1 ++ (p, f) :: L2) : Router α σ).routes
        (patSegs p) [] [] = _
    rw [hroutes, List.foldl_append, List.foldl_cons]
    have hinv1 : NodeInv
        (L1.foldl (fun m pf => registerSegs m (patSegs pf.1) pf.2) emptyNode) :=
      foldReg_inv L1 emptyNode inv_empty
    have hphf1 : phFreeFor
        (L1.foldl (fun m pf => registerSegs m (patSegs pf.1) pf.2) emptyNode)
        (patSegs p) :=
      foldReg_phFree L1 emptyNode (patSegs p)
        (phFreeFor_blank (patSegs p) none none) hcompat1
    have hsr2 := selfResolves_register (patSegs p) _ f hinv1 hwf1 hphf1
    have hsr3 := foldReg_selfRes L2 _ (patSegs p) f hsr2 hcompat2
    rw [findSegs_selfResolves (patSegs p) _ f [] [] hwf1 hsr3]
    simp [paramsOfPattern]
  · exact paramsAccum_keys (patSegs p) [] hwf1 hwf2 hwf3 (by simp) (by simp)

/-- Witness for the amended C3 on the example collection of the spec
(plus a wildcard route): the parametric pattern is found at its own
literal path with its factory and exactly its declared parameter key. -/
theorem claim_c3_amended_witness :
    (buildRouter [(("" : String), (10 : Nat)), ("enter/:roomid", 11),
        ("dashboard", 12), ("files/*", 13)] : Router Nat Unit).findHandlerFactory
        ("enter/:roomid")
      = some ⟨11, joinSegs (patSegs ("enter/:roomid")),
          paramsOfPattern (patSegs ("enter/:roomid"))⟩
    ∧ (paramsOfPattern (patSegs ("enter/:roomid"))).map Prod.fst
        = declaredKeys (patSegs ("enter/:roomid")) :=
  claim_c3_amended Nat Unit
    [("", 10), ("enter/:roomid", 11), ("dashboard", 12), ("files/*", 13)]
    [("", 10)] [("dashboard", 12), ("files/*", 13)] ("enter/:roomid") 11
    rfl (by decide) (by decide)

/-- C5: on every full transition the orchestrator executes all remaining
scope-watcher callbacks, then all deferred cleanups, then the outgoing
controller's cleanupFull, in that relative order and in registration
order within each list, all before the incoming controller's render step
is invoked (the remainder of the trace holds only title, surface and
incoming-render events). -/
theorem claim_c5_full_transition_order :
    ∀ (env : NavEnv) (h : Handler) (info : Option Info) (s : NavSt),
      ∃ tRest,
        (transitionerFull env h info s).2.1
          = Ev.fullStart ::
              (s.ignitersOnPathUnmatch.map (fun ig => Ev.unmatchFire ig.id)
                ++ s.ignitersOnDomClear.map (fun ig => Ev.domClearFire ig.id)
                ++ (match s.prevHandler with
                    | some ph => [Ev.cleanupFull ph.id]
                    | none => [])
                ++ tRest)
        ∧ (∀ e ∈ tRest, (∃ x, e = Ev.setTitle x) ∨ (∃ q, e = Ev.loadHtml q)
              ∨ e = Ev.clearSurface ∨ e = Ev.renderingFull h.id)
        ∧ ((transitionerFull env h info s).2.2 = .ok () →
              Ev.renderingFull h.id ∈ tRest) := by
  intro env h info s
  exact transitionerFull_trace_shape env h info s

/-- C6: when the in-page tier fires, renderingInpage runs on the current
controller and only rawPath and params of the Navigation State change
(the fixedPath is replaced by the equal new fixedPath and the source has
no timestamp field); the controller instance is unchanged and neither a
cleanupFull nor any full or partial render occurs for that navigation. -/
theorem claim_c6_inpage_frame :
    ∀ (env : NavEnv) (p : String) (s : NavSt) (found : FindRet HandlerFactory)
      (prev : Info) (ph : Handler),
      env.router.findHandlerFactory (Router.pathNormalize p) = some found →
      s.prevInfo = some prev →
      prev.fixedPath = found.fixedPath →
      s.prevHandler = some ph →
      Handler.canInpageTransferTo ph found.params = .ok true →
      Handler.renderingInpage ph found.params = .ok () →
      ∃ tI,
        transitioner env p s
          = ({ s with
                prevInfo := some ⟨Router.pathNormalize p, found.fixedPath, found.params⟩,
                ignitersOnPathUnmatch :=
                  s.ignitersOnPathUnmatch.filter
                    (fun ig => igniterKept (splitSegs (Router.pathNormalize p)) ig) },
             tI ++ [Ev.renderingInpage ph.id],
             .ok ())
        ∧ (∀ e ∈ tI, ∃ i, e = Ev.unmatchFire i)
        ∧ ((transitioner env p s).1).prevHandler = some ph
        ∧ (∀ hid, Ev.cleanupFull hid ∉ (transitioner env p s).2.1)
        ∧ (∀ hid, Ev.renderingFull hid ∉ (transitioner env p s).2.1)
        ∧ (∀ hid, Ev.renderingPartial hid ∉ (transitioner env p s).2.1) := by
  intro env p s found prev ph hfind hprev hfx hph hcan hrender
  have heq := transitioner_inpage_run env p s found prev ph hfind hprev hfx hph
    hcan hrender
  refine ⟨_, heq, ?_, ?_, ?_, ?_, ?_⟩
  · intro e he
    obtain ⟨ig, -, hig⟩ := List.mem_map.mp he
    exact ⟨ig.id, hig.symm⟩
  · rw [heq]
    simpa using hph
  · intro hid hmem
    rw [heq] at hmem
    simp only at hmem
    rcases List.mem_append.mp hmem with h1 | h1
    · obtain ⟨ig, -, hig⟩ := List.mem_map.mp h1
      exact absurd hig (by simp)
    · simp at h1
  · intro hid hmem
    rw [heq] at hmem
    simp only at hmem
    rcases List.mem_append.mp hmem with h1 | h1
    · obtain ⟨ig, -, hig⟩ := List.mem_map.mp h1
      exact absurd hig (by simp)
    · simp at h1
  · intro hid hmem
    rw [heq] at hmem
    simp only at hmem
    rcases List.mem_append.mp hmem with h1 | h1
    · obtain ⟨ig, -, hig⟩ := List.mem_map.mp h1
      exact absurd hig (by simp)
    · simp at h1

/-- Witness for C6, matching spec Example 2: from enter/physics-lab to
enter/s33 with an accepting controller, the in-page tier fires with the
controller instance unchanged and no cleanupFull. -/
theorem claim_c6_inpage_frame_witness :
    Router.findHandlerFactory fxEnvEnter.router (Router.pathNormalize ("enter/s33"))
        = some ⟨constFactory (baseHandler 4), "enter/:roomid", [("roomid", "s33")]⟩ ∧
    Handler.canInpageTransferTo fxInpageOk ([("roomid", "s33")]) = .ok true ∧
    (∃ tI,
      transitioner fxEnvEnter ("enter/s33") fxSEnter
        = ({ fxSEnter with
              prevInfo := some ⟨Router.pathNormalize ("enter/s33"), "enter/:roomid",
                [("roomid", "s33")]⟩,
              ignitersOnPathUnmatch :=
                fxSEnter.ignitersOnPathUnmatch.filter
                  (fun ig =>
                    igniterKept (splitSegs (Router.pathNormalize ("enter/s33"))) ig) },
           tI ++ [Ev.renderingInpage fxInpageOk.id],
           .ok ())
      ∧ (∀ e ∈ tI, ∃ i, e = Ev.unmatchFire i)
      ∧ ((transitioner fxEnvEnter ("enter/s33") fxSEnter).1).prevHandler
          = some fxInpageOk
      ∧ (∀ hid, Ev.cleanupFull hid ∉ (transitioner fxEnvEnter ("enter/s33") fxSEnter).2.1)
      ∧ (∀ hid, Ev.renderingFull hid ∉ (transitioner fxEnvEnter ("enter/s33") fxSEnter).2.1)
      ∧ (∀ hid,
          Ev.renderingPartial hid ∉ (transitioner fxEnvEnter ("enter/s33") fxSEnter).2.1)) :=
  ⟨rfl, rfl,
   claim_c6_inpage_frame fxEnvEnter ("enter/s33") fxSEnter
     ⟨constFactory (baseHandler 4), "enter/:roomid", [("roomid", "s33")]⟩
     ⟨"enter/physics-lab", "enter/:roomid", [("roomid", "physics-lab")]⟩
     fxInpageOk rfl rfl rfl rfl rfl rfl⟩

/-- Witness for C9 at a concrete input: the same normalized pattern
registered twice, looked up at its literal path, answers exactly as the
single second registration does. -/
theorem claim_c9_last_write_wins_witness :
    Router.pathNormalize ("/a/") = Router.pathNormalize ("a") ∧
    (((emptyRouter : Router Nat Unit).registerHandlerFactory ("/a/") 1
       ).registerHandlerFactory ("a") 2).findHandlerFactory ("a")
      = ((emptyRouter : Router Nat Unit).registerHandlerFactory ("a") 2
       ).findHandlerFactory ("a") :=
  ⟨by decide,
   claim_c9_last_write_wins.2 Nat Unit emptyRouter ("/a/") ("a") 1 2 ("a") (by decide)⟩

/-- C4 counterexample: a scope watcher merged by a partial transition
(pattern a, id 11, merged while navigating to p) is NOT invoked on the
next navigation whose new path b no longer matches its pattern: when b
resolves to no route and neither special page is registered, the
navigation fails before any flush or full transition, the callback never
fires, and the watcher is still pending afterwards. -/
theorem claim_c4_counterexample :
    mergesW 11 (runSeq fxPartEnv [("p"), ("b")] fxSPart).2 = 1
      ∧ igniterKept (splitSegs (Router.pathNormalize ("b"))) fxWatcher = false
      ∧ firesW 11 (runSeq fxPartEnv [("p"), ("b")] fxSPart).2 = 0
      ∧ ((runSeq fxPartEnv [("p"), ("b")] fxSPart).1).ignitersOnPathUnmatch
          = [fxWatcher] := by
  decide

/-- C4 (corrected): scope-watcher accounting. (1) Every navigation
sequence conserves each watcher callback id: initial pending count plus
merges in the trace equals final pending count plus firings, so a
watcher is removed exactly when it fires. (2) A watcher id registered
exactly once (initially pending or merged once by a partial transition)
fires exactly once or is still pending at the end -- never twice, and
never dropped without firing. (3) A pending watcher fires during any
navigation whose path resolves to a registered route and no longer
matches the watcher's pattern. (4) Every full transition fires all
pending watchers and empties the pending list. (A navigation whose path
does not resolve and that reaches no full transition fires nothing,
which corrects the claim's "first navigation whose new path no longer
matches".) -/
theorem claim_c4_amended :
    (∀ (env : NavEnv) (paths : List String) (s : NavSt) (w : Nat),
       Conserves w s.ignitersOnPathUnmatch
         ((runSeq env paths s).1).ignitersOnPathUnmatch (runSeq env paths s).2)
    ∧ (∀ (env : NavEnv) (paths : List String) (s : NavSt) (w : Nat),
         cntW w s.ignitersOnPathUnmatch + mergesW w (runSeq env paths s).2 = 1 →
         firesW w (runSeq env paths s).2
           + cntW w ((runSeq env paths s).1).ignitersOnPathUnmatch = 1)
    ∧ (∀ (env : NavEnv) (p : String) (s : NavSt) (w : Nat) (ig : Igniter),
         ig ∈ s.ignitersOnPathUnmatch → ig.id = w →
         (env.router.findHandlerFactory (Router.pathNormalize p)).isSome = true →
         igniterKept (splitSegs (Router.pathNormalize p)) ig = false →
         1 ≤ firesW w (navigate env p s).2.1)
    ∧ (∀ (env : NavEnv) (h : Handler) (info : Option Info) (s : NavSt) (w : Nat)
         (ig : Igniter), ig ∈ s.ignitersOnPathUnmatch → ig.id = w →
         1 ≤ firesW w (transitionerFull env h info s).2.1
           ∧ ((transitionerFull env h info s).1).ignitersOnPathUnmatch = []) := by
  refine ⟨?_, ?_, ?_, ?_⟩
  · exact fun env paths s w => runSeq_conserves env paths s w
  · intro env paths s w h1
    have hc := runSeq_conserves env paths s w
    simp only [Conserves] at hc
    omega
  · intro env p s w ig hm hid hf hk
    rcases hfind : env.router.findHandlerFactory (Router.pathNormalize p) with _ | fh
    · rw [hfind] at hf
      simp at hf
    · have h1 := firedEvs_fires_pos (Router.pathNormalize p) s w ig hm hid hk
      have h2 := transitioner_fires_lower env p s w fh hfind
      have h3 := tWEH_fires_lower env p s w
      exact le_trans h1 (le_trans h2 h3)
  · intro env h info s w ig hm hid
    obtain ⟨hfS, -, -⟩ := transitionerFull_watchers env h info s w
    obtain ⟨he, -⟩ := transitionerFull_ign_empty env h info s
    refine ⟨?_, he⟩
    rw [hfS]
    exact cntW_pos_of_mem w _ ig hm hid

/-- Witness for C4: the conservation identity on a concrete run, an
exactly-once run (watcher 14 pending, fired on the resolving navigation
to a), a concrete firing on a non-matching resolved path, and a concrete
full-transition flush. -/
theorem claim_c4_amended_witness :
    Conserves 11 fxSWatch.ignitersOnPathUnmatch
        ((runSeq fxPartEnv [("b")] fxSWatch).1).ignitersOnPathUnmatch
        (runSeq fxPartEnv [("b")] fxSWatch).2
      ∧ firesW 14 (runSeq fxEnvA [("a")] fxSWatchB).2
          + cntW 14 ((runSeq fxEnvA [("a")] fxSWatchB).1).ignitersOnPathUnmatch = 1
      ∧ 1 ≤ firesW 14 (navigate fxEnvA ("a") fxSWatchB).2.1
      ∧ (1 ≤ firesW 14 (transitionerFull fxEnvA (baseHandler 2) none fxSWatchB).2.1
          ∧ ((transitionerFull fxEnvA (baseHandler 2) none
                fxSWatchB).1).ignitersOnPathUnmatch = []) :=
  ⟨claim_c4_amended.1 fxPartEnv [("b")] fxSWatch 11,
   claim_c4_amended.2.1 fxEnvA [("a")] fxSWatchB 14 (by decide),
   claim_c4_amended.2.2.1 fxEnvA ("a") fxSWatchB 14 fxWatcherB (by decide) (by decide)
     (by decide) (by decide),
   claim_c4_amended.2.2.2 fxEnvA (baseHandler 2) none fxSWatchB 14 fxWatcherB
     (by decide) (by decide)⟩

end Spa

section SpaScratch

open Spa

example : Router.pathNormalize ("/a//b/") = "a/b" := by decide

example : splitSegs ("a/b") = ["a", "b"] := by decide

example : splitSegs ("") = [] := by decide

example :
    ((((emptyRouter : Router Nat Unit).registerHandlerFactory ("") 10
      ).registerHandlerFactory ("enter/:roomid") 11
      ).registerHandlerFactory ("dashboard") 12
      ).findHandlerFactory ("enter/physics-lab")
    = some ⟨11, "enter/:roomid", [("roomid", "physics-lab")]⟩ := by decide

example :
    (navigate fxEnvA ("a") fxS0).2 =
      ([Ev.renderingInpage 1, Ev.fullStart, Ev.cleanupFull 1,
        Ev.setTitle (""), Ev.clearSurface, Ev.renderingFull 2], .ok ()) := by decide

end SpaScratch
